import Mathlib

/-!
# Meeting room: multi-persona response orchestration

A shallow embedding of `src/pages/meeting.jsx` (component `MeetingRoom`).

* JavaScript strings are Lean strings, read through their list of code points.
* `Math.random()` is an explicit argument: a draw `r` of an ordered field `K`
  (the rationals when a definition is evaluated, the reals when a set of draws
  is measured).  Each call site of `Math.random()` receives its own draw.
  Arithmetic on a draw is exact in `K`; the index of line 204, where the
  rounding of the product to a double changes which string is read, is also
  given in double precision (`generateFallbackResponse.pickDouble`).
* The network call `fetch("/api/chat", ...)` is an explicit argument as well:
  a `FetchOutcome` that says how the call ended.
* `throw` and `try`/`catch` are embedded in `Except JsError`.
* React state is a record `MeetingState`; the timers registered with
  `setTimeout` and not yet run are a field of it.
-/

namespace MeetingRoom

/-! ## JavaScript values and strings -/

/-- A JavaScript value, as far as the meeting room can tell values apart:
arrays, functions and objects are all `object` (always truthy). -/
inductive JsValue where
  | undefined
  | null
  | bool (b : Bool)
  | number (n : ℚ)
  | string (s : String)
  | object
  deriving DecidableEq

/-- Truthiness of a value, `ToBoolean` of ECMAScript: what `if (response)` tests. -/
def JsValue.truthy : JsValue → Bool
  | .undefined => false
  | .null => false
  | .bool b => b
  | .number n => n != 0
  | .string s => s != ""
  | .object => true

/-- An exception thrown inside the component. -/
inductive JsError where
  | typeError
  | syntaxError
  | error (message : String)
  deriving DecidableEq

/-- Lower-casing of `String.prototype.toLowerCase`, modelled on the Basic Latin
letters `A`-`Z`; every other code point is left as it is. -/
def toLowerCase (s : String) : String :=
  ⟨s.data.map Char.toLower⟩

/-- Substring search on code points: `includesChars hay needle` is true when
`needle` occurs in `hay` as a contiguous block. -/
def includesChars : List Char → List Char → Bool
  | [], needle => needle.isEmpty
  | c :: cs, needle => needle.isPrefixOf (c :: cs) || includesChars cs needle

/-- The method `String.prototype.includes`: `includes s t` is `s.includes(t)`. -/
def includes (s t : String) : Bool :=
  includesChars s.data t.data

/-- White space and line terminators of ECMAScript, the code points removed by
`String.prototype.trim`. -/
def isWhiteSpace (c : Char) : Bool :=
  let n := c.toNat
  (9 ≤ n && n ≤ 13) || n == 32 || n == 160 || n == 5760 || (8192 ≤ n && n ≤ 8202)
    || n == 8232 || n == 8233 || n == 8239 || n == 8287 || n == 12288 || n == 65279

/-- The method `String.prototype.trim`. -/
def trim (s : String) : String :=
  ⟨((s.data.dropWhile isWhiteSpace).reverse.dropWhile isWhiteSpace).reverse⟩

/-! ## Persona registry -/

/-- One entry of `AI_BOTS`. -/
structure Bot where
  id : String
  name : String
  expertise : String
  personality : String
  color : String
  position : String × String
  keywords : List String
  deriving DecidableEq

/-- The persona registry of `meeting.jsx`, lines 51-107. -/
def AI_BOTS : List Bot := [
  { id := "strategist"
    name := "Alex Strategy"
    expertise := "Business Strategy"
    personality :=
      "Analytical and forward-thinking strategist who focuses on long-term planning and competitive analysis"
    color := "bg-blue-600"
    position := ("10%", "50%")
    keywords := ["strategy", "business", "plan", "growth", "market", "competitive", "roadmap", "vision"] },
  { id := "creative"
    name := "Maya Creative"
    expertise := "Creative Design"
    personality := "Innovative and artistic designer who brings fresh perspectives and visual solutions"
    color := "bg-black"
    position := ("30%", "80%")
    keywords := ["design", "creative", "art", "visual", "brand", "aesthetic", "innovation", "concept"] },
  { id := "tech"
    name := "Sam Tech"
    expertise := "Technology"
    personality :=
      "Logical and solution-oriented developer who focuses on technical implementation and scalability"
    color := "bg-blue-600"
    position := ("70%", "80%")
    keywords := ["tech", "code", "development", "software", "system", "digital", "architecture", "programming"] },
  { id := "marketing"
    name := "Jordan Marketing"
    expertise := "Marketing"
    personality :=
      "Persuasive and data-driven marketer who understands audience behavior and campaign optimization"
    color := "bg-black"
    position := ("90%", "50%")
    keywords := ["marketing", "campaign", "audience", "brand", "promotion", "social", "engagement", "conversion"] },
  { id := "finance"
    name := "Riley Finance"
    expertise := "Finance"
    personality := "Precise and risk-aware financial analyst who focuses on ROI and budget optimization"
    color := "bg-blue-600"
    position := ("70%", "20%")
    keywords := ["finance", "budget", "cost", "revenue", "investment", "profit", "ROI", "financial"] },
  { id := "hr"
    name := "Casey HR"
    expertise := "Human Resources"
    personality :=
      "Empathetic and people-focused HR specialist who prioritizes team culture and talent development"
    color := "bg-black"
    position := ("30%", "20%")
    keywords := ["team", "people", "culture", "hiring", "employee", "talent", "management", "development"] }
]

/-! ## Relevance filter (lines 136-138) -/

/-- Line 136: `bot.keywords.some(k => userMessage.toLowerCase().includes(k.toLowerCase()))`. -/
def hasKeyword (bot : Bot) (userMessage : String) : Bool :=
  bot.keywords.any fun keyword => includes (toLowerCase userMessage) (toLowerCase keyword)

/-- Line 138, the condition of the early `return null`:
`!hasKeyword && Math.random() > 0.3`, with `r` the value of `Math.random()`. -/
def filteredOut {K : Type} [LinearOrderedField K] (bot : Bot) (userMessage : String) (r : K) : Bool :=
  !hasKeyword bot userMessage && decide (r > 3 / 10)

/-! ## Response generator (lines 135-205) -/

/-- The parsed body of a response, the value `data` of line 158.  For an
object, `message` is the value of its property `message` (`undefined` when the
object has no such property). -/
inductive JsonData where
  | null
  | bool (b : Bool)
  | number (n : ℚ)
  | string (s : String)
  | array
  | object (message : JsValue)
  deriving DecidableEq

/-- The property read `data.message` of line 159: a `TypeError` on `null`,
`undefined` on the other values that are not objects with that property. -/
def JsonData.message : JsonData → Except JsError JsValue
  | .null => .error .typeError
  | .object message => .ok message
  | _ => .ok .undefined

/-- How the call `fetch("/api/chat", ...)` of line 141 ends: the promise is
rejected (network error), or it resolves to a response with an HTTP status and
a body; the body is `none` when `response.json()` cannot parse it. -/
inductive FetchOutcome where
  | rejected
  | response (status : Nat) (body : Option JsonData)
  deriving DecidableEq

/-- The getter `Response.ok` of the Fetch API: the status is in 200-299. -/
def statusOk (status : Nat) : Bool :=
  200 ≤ status && status ≤ 299

/-- Everything outside the component that one persona task reads: its three
calls of `Math.random()` (lines 138, 204 and 219) and the end of its network call. -/
structure PersonaEnv (K : Type) where
  filterDraw : K
  outcome : FetchOutcome
  fallbackDraw : K
  delayDraw : K

/-- The table `responses` of `generateFallbackResponse`, lines 168-199. -/
def generateFallbackResponse.responses : List (String × List String) := [
  ("strategist", [
    "From a strategic perspective, we should consider the long-term implications of this approach.",
    "Let's analyze the competitive landscape and market positioning for this initiative.",
    "I recommend developing a comprehensive roadmap with clear milestones and success metrics."]),
  ("creative", [
    "What if we approached this from a completely different creative angle?",
    "The visual impact and brand storytelling potential here could be significant.",
    "Let me conceptualize some innovative design solutions for this challenge."]),
  ("tech", [
    "We need to evaluate the technical feasibility and scalability requirements carefully.",
    "I can architect a robust solution that supports future growth and integration needs.",
    "The system design should prioritize performance, security, and maintainability."]),
  ("marketing", [
    "How will this resonate with our target audience and drive engagement?",
    "We should implement A/B testing and analytics to optimize campaign performance.",
    "The messaging strategy needs to align with our brand voice and market positioning."]),
  ("finance", [
    "What's the projected ROI and how does this fit within our budget constraints?",
    "We need to conduct a thorough cost-benefit analysis before proceeding.",
    "Let's review the financial implications and identify potential revenue opportunities."]),
  ("hr", [
    "How will this impact team dynamics, morale, and overall productivity?",
    "We should consider the change management and training requirements for our people.",
    "Let's ensure we have the right talent and resources to execute this successfully."])
]

/-- The default of line 201-203, used when `responses[bot.id]` is falsy. -/
def generateFallbackResponse.generic : List String :=
  ["That's an interesting perspective to explore further."]

/-- Property names that the object literal `responses` inherits from
`Object.prototype`: `responses[id]` is a function (or, for `__proto__`, the
prototype object) for these, a truthy value without indexed elements. -/
def generateFallbackResponse.inherited : List String :=
  ["constructor", "hasOwnProperty", "isPrototypeOf", "propertyIsEnumerable", "toLocaleString",
   "toString", "valueOf", "__proto__", "__defineGetter__", "__defineSetter__",
   "__lookupGetter__", "__lookupSetter__"]

/-- Line 204: `botResponses[Math.floor(Math.random() * botResponses.length)]`,
with `r` the value of `Math.random()`; an index outside the array reads
`undefined`. The product is the exact one of the field `K`;
`generateFallbackResponse.pickDouble` rounds it to a double as the machine
does, which can move a draw just below `i / length` to the index `i`. -/
def generateFallbackResponse.pick {K : Type} [LinearOrderedField K] [FloorRing K]
    (botResponses : List String) (r : K) : JsValue :=
  let i : ℤ := ⌊r * (botResponses.length : K)⌋
  if i < 0 then .undefined
  else
    match botResponses.get? i.toNat with
    | some s => .string s
    | none => .undefined

/-- The function `generateFallbackResponse` of lines 167-205. -/
def generateFallbackResponse {K : Type} [LinearOrderedField K] [FloorRing K]
    (bot : Bot) (_userMessage : String) (r : K) : JsValue :=
  match generateFallbackResponse.responses.lookup bot.id with
  | some botResponses => generateFallbackResponse.pick botResponses r
  | none =>
    if bot.id ∈ generateFallbackResponse.inherited then .undefined
    else generateFallbackResponse.pick generateFallbackResponse.generic r

/-- The `try` block of `generateBotResponseWithGemini`, lines 141-159. -/
def generateBotResponseWithGemini.tryBlock : FetchOutcome → Except JsError JsValue
  | .rejected => .error .typeError
  | .response status body =>
    if !statusOk status then .error (.error "Failed to get AI response")
    else
      match body with
      | none => .error .syntaxError
      | some data => data.message

/-- The `try`/`catch` statement of lines 140-164: the value of the `try`
block, or the fallback of line 163 when the block throws. -/
def generateBotResponseWithGemini.tryCatch {K : Type} [LinearOrderedField K] [FloorRing K]
    (bot : Bot) (userMessage : String) (env : PersonaEnv K) : Except JsError JsValue :=
  match generateBotResponseWithGemini.tryBlock env.outcome with
  | .ok v => .ok v
  | .error _ => .ok (generateFallbackResponse bot userMessage env.fallbackDraw)

/-- The function `generateBotResponseWithGemini` of lines 135-165. -/
def generateBotResponseWithGemini {K : Type} [LinearOrderedField K] [FloorRing K]
    (bot : Bot) (userMessage : String) (env : PersonaEnv K) : Except JsError JsValue :=
  if filteredOut bot userMessage env.filterDraw then .ok .null
  else generateBotResponseWithGemini.tryCatch bot userMessage env

/-! ## Submission and staggered delivery (lines 207-258) -/

/-- The object built at lines 216-220: a response waiting for its delay. -/
structure PendingResponse (K : Type) where
  bot : Bot
  response : JsValue
  delay : K

/-- One entry of `chatMessages`, the object built at lines 230-236 and 249-256. -/
structure ChatMessage where
  id : String
  botId : String
  botName : String
  message : JsValue
  timestamp : Nat
  deriving DecidableEq

/-- The state of the component: the six `useState` cells of lines 110-115, and
`timers`, the callbacks registered by `setTimeout` (line 229) that have not run yet. -/
structure MeetingState (K : Type) where
  timeLeft : ℤ
  selectedBot : Option String
  userInput : String
  chatMessages : List ChatMessage
  meetingStarted : Bool
  isLoading : Bool
  timers : List (PendingResponse K)

/-- The initial values of lines 110-115; no timer is registered. -/
def initialState (K : Type) : MeetingState K where
  timeLeft := 15 * 60
  selectedBot := none
  userInput := ""
  chatMessages := []
  meetingStarted := false
  isLoading := false
  timers := []

/-- The `async (bot) => ...` callback of lines 213-223. -/
def handleSendMessage.task {K : Type} [LinearOrderedField K] [FloorRing K]
    (userInput : String) (env : Bot → PersonaEnv K) (bot : Bot) :
    Except JsError (Option (PendingResponse K)) :=
  match generateBotResponseWithGemini bot userInput (env bot) with
  | .error e => .error e
  | .ok response =>
    if response.truthy then
      .ok (some { bot := bot, response := response, delay := (env bot).delayDraw * 2000 + 500 })
    else .ok none

/-- The result of `Promise.all`: the list of the results when every promise is
fulfilled, a rejection as soon as one promise is rejected. -/
def promiseAll {α : Type} : List (Except JsError α) → Except JsError (List α)
  | [] => .ok []
  | .error e :: _ => .error e
  | .ok v :: ps =>
    match promiseAll ps with
    | .ok vs => .ok (v :: vs)
    | .error e => .error e

/-- Lines 213-225: `await Promise.all(AI_BOTS.map(async (bot) => ...))`. -/
def handleSendMessage.responses {K : Type} [LinearOrderedField K] [FloorRing K]
    (userInput : String) (env : Bot → PersonaEnv K) :
    Except JsError (List (Option (PendingResponse K))) :=
  promiseAll (AI_BOTS.map (handleSendMessage.task userInput env))

/-- The function `handleSendMessage` of lines 207-244.  The `forEach` of lines
227-240 registers one timer for each result that is not `null`, in the order of
`AI_BOTS`.  A rejection of `Promise.all` leaves the function after line 210. -/
def handleSendMessage {K : Type} [LinearOrderedField K] [FloorRing K]
    (s : MeetingState K) (env : Bot → PersonaEnv K) : Except JsError (MeetingState K) :=
  if (trim s.userInput).isEmpty || !s.meetingStarted then .ok s
  else
    match handleSendMessage.responses s.userInput env with
    | .error e => .error e
    | .ok responses =>
      .ok { s with
        timers := s.timers ++ responses.filterMap id
        userInput := ""
        isLoading := false }

/-- The entry built by the `setTimeout` callback of lines 229-238 when it runs
at clock value `now` (milliseconds since the epoch); `Date.now()` and
`new Date()` read the same clock value within one run of the callback. -/
def newMessage {K : Type} (responseData : PendingResponse K) (now : Nat) : ChatMessage where
  id := toString now ++ responseData.bot.id
  botId := responseData.bot.id
  botName := responseData.bot.name
  message := responseData.response
  timestamp := now

/-- The `setTimeout` callback of timer number `i` runs at clock value `now`:
`setChatMessages((prev) => [...prev, newMessage])`; the timer is spent. -/
def fireTimer {K : Type} (s : MeetingState K) (i : Nat) (now : Nat) : MeetingState K :=
  match s.timers.get? i with
  | none => s
  | some responseData =>
    { s with
      chatMessages := s.chatMessages ++ [newMessage responseData now]
      timers := s.timers.eraseIdx i }

/-- The function `startMeeting` of lines 246-258, called at clock value `now`. -/
def startMeeting {K : Type} (s : MeetingState K) (now : Nat) : MeetingState K :=
  { s with
    meetingStarted := true
    chatMessages := [
      { id := "welcome"
        botId := "system"
        botName := "Meeting Assistant"
        message := .string
          "Welcome to your AI meeting room! Share your thoughts and our expert AI team will provide insights from their respective fields."
        timestamp := now }] }

/-- One tick of the countdown of lines 118-126: the interval exists only while
the meeting is started and `timeLeft` is positive, and its callback is
`setTimeLeft((prev) => prev - 1)`. -/
def tick {K : Type} (s : MeetingState K) : MeetingState K :=
  if !s.meetingStarted || s.timeLeft ≤ 0 then s
  else { s with timeLeft := s.timeLeft - 1 }

/-- What can happen to the mounted component. -/
inductive Event (K : Type) where
  | clickStart (now : Nat)
  | typeInput (text : String)
  | send (env : Bot → PersonaEnv K)
  | timeout (i : Nat) (now : Nat)
  | tick
  | clickBot (id : String)

/-- One step of the component.  The guards are those of the rendered page: the
start button exists only while the meeting is not started (line 276), the
input and the send button only once it is (line 334), and both are inert while
`isLoading` (lines 339-341 and 346). -/
def step {K : Type} [LinearOrderedField K] [FloorRing K]
    (s : MeetingState K) : Event K → MeetingState K
  | .clickStart now => if s.meetingStarted then s else startMeeting s now
  | .typeInput text =>
    if s.meetingStarted && !s.isLoading then { s with userInput := text } else s
  | .send env =>
    if s.meetingStarted && !s.isLoading then
      match handleSendMessage s env with
      | .ok s' => s'
      | .error _ => { s with isLoading := true }
    else s
  | .timeout i now => fireTimer s i now
  | .tick => tick s
  | .clickBot id =>
    { s with selectedBot := if s.selectedBot = some id then none else some id }

/-- The state after a sequence of events, from the initial state. -/
def run {K : Type} [LinearOrderedField K] [FloorRing K] (events : List (Event K)) : MeetingState K :=
  events.foldl step (initialState K)

/-- A state is reachable when some sequence of events leads to it. -/
def Reachable {K : Type} [LinearOrderedField K] [FloorRing K] (s : MeetingState K) : Prop :=
  ∃ events : List (Event K), run events = s

/-- The invariant behind the append-only transcript: before the meeting is
started there is no entry and no timer. -/
def Idle {K : Type} (s : MeetingState K) : Prop :=
  s.meetingStarted = false → s.chatMessages = [] ∧ s.timers = []

/-! ## Countdown display (lines 128-133) -/

/-- The method `String.prototype.padStart`: the string is extended on the left
with repetitions of `padString`, cut to the missing length. -/
def padStart (s : String) (targetLength : Nat) (padString : String) : String :=
  let n := targetLength - s.length
  ⟨(List.replicate n padString.data).flatten.take n ++ s.data⟩

/-- The function `formatTime` of lines 129-133, on an integer number of
seconds: `Math.floor(seconds / 60)` is the floor division and `seconds % 60`
the remainder of the truncated division. -/
def formatTime (seconds : ℤ) : String :=
  let mins := seconds.fdiv 60
  let secs := seconds.tmod 60
  padStart (toString mins) 2 "0" ++ ":" ++ padStart (toString secs) 2 "0"

end MeetingRoom

/-! # Chat advisor: `src/pages/neeti.jsx`, lines 399-429 -/

namespace NeetiAI

open MeetingRoom

/-- Line 411: `rawText.replace(/[#*]/g, "")`. -/
def clean (rawText : String) : String :=
  ⟨rawText.data.filter fun c => !(c == '#' || c == '*')⟩

/-- The parsed body `result` of line 399, as far as lines 402-409 read it:
`incomplete` when the condition of lines 402-408 is falsy (a link of
`result.candidates[0].content.parts[0]` is missing), and otherwise the value of
`result.candidates[0].content.parts[0].text`. -/
inductive GeminiResult where
  | incomplete
  | part (text : JsValue)

/-- Lines 400-412: the value of `aiResponseText`; calling `replace` on a value
that is not a string throws a `TypeError`. -/
def aiResponseText : GeminiResult → Except JsError String
  | .incomplete => .ok "Sorry, I couldn't generate a response. Please try again."
  | .part (.string rawText) => .ok (clean rawText)
  | .part _ => .error .typeError

/-- The content of the message that replaces the loading message: line 416,
or line 426 when the `try` block throws. -/
def displayedReply (result : GeminiResult) : String :=
  match aiResponseText result with
  | .ok content => content
  | .error _ =>
    "There was an error processing your request. Please check the console for details."

end NeetiAI

/-! # Signup: `src/pages/Auth.jsx`, lines 314-335 -/

namespace Auth

open MeetingRoom

/-- The characters kept by `replace(/[^a-z0-9]/g, '')`. -/
def isLowerAlnum (c : Char) : Bool :=
  let n := c.toNat
  (97 ≤ n && n ≤ 122) || (48 ≤ n && n ≤ 57)

/-- Line 328: `signupData.email.toLowerCase().replace(/[^a-z0-9]/g, '')`. -/
def userId (email : String) : String :=
  ⟨(toLowerCase email).data.filter isLowerAlnum⟩

/-- The form state `signupData`. -/
structure SignupData where
  name : String
  email : String
  password : String
  deriving DecidableEq

/-- The function `handleSignup` of lines 314-335 up to its call of
`account.create`: the error message of line 318 when a field is empty, or the
four arguments passed to `account.create` (user id, email, password, name). -/
def handleSignup (signupData : SignupData) : Except String (String × String × String × String) :=
  if signupData.name = "" || signupData.email = "" || signupData.password = "" then
    .error "Please fill in all fields"
  else
    .ok (userId signupData.email, signupData.email, signupData.password, signupData.name)

end Auth

/-! # Market analysis: `src/components/MarketAnalysis.jsx`, lines 136-170 and 283-296 -/

namespace MarketAnalysis

open MeetingRoom

/-- The property `String.prototype.length`: the number of UTF-16 code units. -/
def length16 (s : String) : Nat :=
  (s.data.map fun c => if c.toNat < 65536 then 1 else 2).sum

/-- The pieces of a text between the occurrences of a separator character;
`acc` holds the current piece, reversed. -/
def splitAux (sep : Char) : List Char → List Char → List String
  | [], acc => [⟨acc.reverse⟩]
  | c :: cs, acc =>
    if c = sep then ⟨acc.reverse⟩ :: splitAux sep cs [] else splitAux sep cs (c :: acc)

/-- The method `String.prototype.split` with a separator of one character. -/
def split (s : String) (sep : Char) : List String :=
  splitAux sep s.data []

/-- The pieces of a text between the maximal runs of separator characters;
`inRun` says that the previous character was a separator. -/
def splitRunsAux (p : Char → Bool) : List Char → List Char → Bool → List String
  | [], acc, _ => [⟨acc.reverse⟩]
  | c :: cs, acc, inRun =>
    if p c then
      if inRun then splitRunsAux p cs acc true
      else ⟨acc.reverse⟩ :: splitRunsAux p cs [] true
    else splitRunsAux p cs (c :: acc) false

/-- Line 162: `analysis.split(/[.!?]+/)`. -/
def splitSentences (analysis : String) : List String :=
  splitRunsAux (fun c => c == '.' || c == '!' || c == '?') analysis.data [] false

/-- The class `\d` of a regular expression without the `u` flag: `0`-`9`. -/
def isDigit (c : Char) : Bool :=
  48 ≤ c.toNat && c.toNat ≤ 57

/-- Line 149: `/^\d+\./.test(trimmed)`. -/
def startsWithNumbering (trimmed : String) : Bool :=
  (trimmed.data.head?.map isDigit == some true) &&
    ((trimmed.data.dropWhile isDigit).head? == some '.')

/-- The predicate of the filter of lines 144-151. -/
def isBulletLine (line : String) : Bool :=
  let trimmed := trim line
  trimmed.data.head? == some '-' || trimmed.data.head? == some '•' ||
    trimmed.data.head? == some '*' || startsWithNumbering trimmed ||
    decide (length16 trimmed > 20)

/-- The characters of the class `[-•*\s\d.]`. -/
def isMarker (c : Char) : Bool :=
  c == '-' || c == '•' || c == '*' || isWhiteSpace c || isDigit c || c == '.'

/-- Line 154: `line.replace(/^[-•*\s\d.]+/, '').trim()`. -/
def cleanLine (line : String) : String :=
  trim ⟨line.data.dropWhile isMarker⟩

/-- Line 139: the lines of the analysis that are not blank. -/
def parseAnalysisToBulletPoints.lines (analysis : String) : List String :=
  (split analysis '\n').filter fun line => trim line != ""

/-- Lines 142-156: the value of `bulletPoints`. -/
def parseAnalysisToBulletPoints.bulletPoints (analysis : String) : List String :=
  (((parseAnalysisToBulletPoints.lines analysis).filter isBulletLine).map cleanLine).filter
    fun line => decide (length16 line > 10)

/-- Line 162: the value of `sentences`. -/
def parseAnalysisToBulletPoints.sentences (analysis : String) : List String :=
  (splitSentences analysis).filter fun s => decide (length16 (trim s) > 20)

/-- The function `parseAnalysisToBulletPoints` of lines 136-170 on a string
`analysis`.  No operation of the `try` block throws on a string, so the
`catch` clause, the only reader of `tabType`, is not entered. -/
def parseAnalysisToBulletPoints (analysis : String) (_tabType : String) : List String :=
  if (parseAnalysisToBulletPoints.bulletPoints analysis).length ≥ 3 then
    (parseAnalysisToBulletPoints.bulletPoints analysis).take 7
  else
    ((parseAnalysisToBulletPoints.sentences analysis).take 6).map trim

/-- The search of `indexOf` from index `i` on: the index of the first
occurrence of `needle`, or `-1`. -/
def indexOfAux (needle : List Char) : List Char → Nat → ℤ
  | [], i => if needle.isEmpty then (i : ℤ) else -1
  | c :: cs, i => if needle.isPrefixOf (c :: cs) then (i : ℤ) else indexOfAux needle cs (i + 1)

/-- The method `String.prototype.indexOf(searchString, position)`. -/
def indexOf (s searchString : String) (position : Nat) : ℤ :=
  indexOfAux searchString.data (s.data.drop (min position s.data.length))
    (min position s.data.length)

/-- The method `String.prototype.substring(indexStart, indexEnd)`: each
argument is clamped to the range from 0 to the length, and the two are swapped
when the first is the larger. -/
def substring (s : String) (indexStart indexEnd : ℤ) : String :=
  let len : ℤ := s.data.length
  let a := (max 0 (min indexStart len)).toNat
  let b := (max 0 (min indexEnd len)).toNat
  ⟨(s.data.drop (min a b)).take (max a b - min a b)⟩

/-- Lines 284-288 of `extractPoints`: `none` for the early `return []` of line
285, or the value of `section`. -/
def extractPoints.sectionOf (text startKeyword endKeyword : String) : Option String :=
  let startIndex := indexOf (toLowerCase text) (toLowerCase startKeyword) 0
  if startIndex = -1 then none
  else
    let endIndex :=
      if endKeyword ≠ "" then
        indexOf (toLowerCase text) (toLowerCase endKeyword) startIndex.toNat
      else (text.data.length : ℤ)
    some (substring text startIndex endIndex)

/-- The function `extractPoints` of lines 283-296.  Lines 290-295 compute the
returned list from `section` alone (three regular-expression matches, then a
clean-up of each match); that computation is the argument `points`. -/
def extractPoints (points : String → List String) (text startKeyword endKeyword : String) :
    List String :=
  match extractPoints.sectionOf text startKeyword endKeyword with
  | none => []
  | some sectionText => points sectionText

end MarketAnalysis

/-! # Blind-spot assessment: `src/pages/Blindspot.jsx`, lines 21-241 -/

namespace BlindSpotDetectorApp

open MeetingRoom

/-- One question of a questionnaire. -/
structure Question where
  id : String
  question : String
  type : String
  weight : Nat
  category : String
  deriving DecidableEq

/-- One questionnaire. -/
structure Questionnaire where
  id : String
  title : String
  description : String
  category : String
  questions : List Question
  deriving DecidableEq

/-- The constant `mockQuestionnaires` of lines 21-151. -/
def mockQuestionnaires : List Questionnaire := [
  { id := "1"
    title := "Digital Marketing Assessment"
    description := "Evaluate your online presence, SEO, and digital marketing strategies"
    category := "marketing"
    questions := [
      { id := "q1"
        question := "Do you have a comprehensive SEO strategy in place?"
        type := "boolean"
        weight := 1
        category := "seo" },
      { id := "q2"
        question := "Are you actively monitoring your website analytics?"
        type := "boolean"
        weight := 1
        category := "analytics" },
      { id := "q3"
        question := "Do you have a content marketing calendar?"
        type := "boolean"
        weight := 1
        category := "content" },
      { id := "q4"
        question := "Are you using social media for business growth?"
        type := "boolean"
        weight := 1
        category := "social_media" },
      { id := "q5"
        question := "Do you have email marketing automation set up?"
        type := "boolean"
        weight := 1
        category := "email_marketing" }] },
  { id := "2"
    title := "Operations & Process Assessment"
    description := "Analyze your business operations, workflows, and process efficiency"
    category := "operations"
    questions := [
      { id := "q6"
        question := "Do you have documented standard operating procedures?"
        type := "boolean"
        weight := 1
        category := "documentation" },
      { id := "q7"
        question := "Are your business processes automated where possible?"
        type := "boolean"
        weight := 1
        category := "automation" },
      { id := "q8"
        question := "Do you regularly review and optimize your workflows?"
        type := "boolean"
        weight := 1
        category := "optimization" },
      { id := "q9"
        question := "Is there clear communication between departments?"
        type := "boolean"
        weight := 1
        category := "communication" },
      { id := "q10"
        question := "Do you have quality control measures in place?"
        type := "boolean"
        weight := 1
        category := "quality_control" }] },
  { id := "3"
    title := "Financial Management Assessment"
    description := "Review your financial planning, budgeting, and cash flow management"
    category := "finance"
    questions := [
      { id := "q11"
        question := "Do you have a detailed annual budget?"
        type := "boolean"
        weight := 1
        category := "budgeting" },
      { id := "q12"
        question := "Are you tracking key financial metrics regularly?"
        type := "boolean"
        weight := 1
        category := "metrics" },
      { id := "q13"
        question := "Do you have emergency cash reserves?"
        type := "boolean"
        weight := 1
        category := "cash_flow" },
      { id := "q14"
        question := "Are you monitoring profit margins by product/service?"
        type := "boolean"
        weight := 1
        category := "profitability" },
      { id := "q15"
        question := "Do you have financial forecasting in place?"
        type := "boolean"
        weight := 1
        category := "forecasting" }] }
]

/-- Rounding of a rational to the nearest integer, ties to the even one. -/
def roundHalfEven (x : ℚ) : ℤ :=
  if x - ⌊x⌋ < 1 / 2 then ⌊x⌋
  else if 1 / 2 < x - ⌊x⌋ then ⌊x⌋ + 1
  else if ⌊x⌋ % 2 = 0 then ⌊x⌋
  else ⌊x⌋ + 1

/-- The double nearest to a rational (IEEE 754 binary64, round to nearest,
ties to even), for values in the normal range: the result of one arithmetic
operation of JavaScript is `toDouble` of the exact result. -/
def toDouble (x : ℚ) : ℚ :=
  if x = 0 then 0
  else (roundHalfEven (x / 2 ^ (Int.log 2 |x| - 52)) : ℚ) * 2 ^ (Int.log 2 |x| - 52)

/-- The function `Math.round`: the nearest integer, ties towards plus infinity. -/
def mathRound (x : ℚ) : ℤ :=
  ⌊x + 1 / 2⌋

/-- The call `s.replace("_", " ")`: the first underscore becomes a space. -/
def replaceUnderscore : List Char → List Char
  | [] => []
  | c :: cs => if c = '_' then ' ' :: cs else c :: replaceUnderscore cs

/-- The expression `category.replace("_", " ")`. -/
def spaced (category : String) : String :=
  ⟨replaceUnderscore category.data⟩

/-- Upper-casing of `String.prototype.toUpperCase`, modelled on the Basic Latin
letters `a`-`z`. -/
def toUpperCase (s : String) : String :=
  ⟨s.data.map Char.toUpper⟩

/-- The object `responses`: question ids with the boolean answers, in the order
of insertion. -/
abbrev Responses := List (String × Bool)

/-- One element of `blind_spots`, lines 171-177. -/
structure BlindSpot where
  title : String
  description : String
  risk_level : ℚ
  impact : String
  category : String
  deriving DecidableEq

/-- One element of `recommendations`, lines 180-185. -/
structure Recommendation where
  title : String
  description : String
  priority : String
  estimated_effort : String
  deriving DecidableEq

/-- The object returned by `generateAnalysis`, lines 187-200; `created_at` is
the clock value whose ISO form the source stores. -/
structure Analysis where
  id : String
  questionnaire_title : String
  category : String
  blind_spots : List BlindSpot
  recommendations : List Recommendation
  risk_score : ℤ
  priority_areas : List String
  analysis_summary : String
  created_at : Nat
  deriving DecidableEq

/-- Line 165: `Object.values(responses).filter((r) => r === false).length`. -/
def generateAnalysis.negativeResponses (responses : Responses) : Nat :=
  ((responses.map Prod.snd).filter fun r => r == false).length

/-- Line 166: `Math.round((negativeResponses / totalQuestions) * 100)`, the
division and the product each rounded to a double.  (For an empty
questionnaire JavaScript divides by zero; that case is outside this model.) -/
def generateAnalysis.riskScore (negativeResponses totalQuestions : Nat) : ℤ :=
  mathRound (toDouble (toDouble ((negativeResponses : ℚ) / (totalQuestions : ℚ)) * 100))

/-- Lines 168-177: the value of `blindSpots`; `random q` is the value of
`Math.random()` in the blind spot made from question `q`. -/
def generateAnalysis.blindSpots (questionnaire : Questionnaire) (responses : Responses)
    (random : Question → ℚ) : List BlindSpot :=
  (questionnaire.questions.filter fun q => responses.lookup q.id == some false).map fun q =>
    { title := toUpperCase (spaced q.category) ++ " Gap"
      description := "Based on your response to \"" ++ q.question ++
        "\", there appears to be a gap in your " ++ spaced q.category ++ " strategy."
      risk_level := min 90 (toDouble (60 + toDouble (random q * 30)))
      impact := "This could impact your business growth and competitive advantage in the " ++
        spaced q.category ++ " area."
      category := q.category }

/-- Lines 179-185: the value of `recommendations`. -/
def generateAnalysis.recommendations (blindSpots : List BlindSpot) : List Recommendation :=
  blindSpots.map fun spot =>
    { title := "Improve " ++ toUpperCase (spaced spot.category)
      description := "Develop and implement a comprehensive strategy to address the " ++
        spaced spot.category ++ " gap identified in your assessment."
      priority :=
        if (80 : ℚ) < spot.risk_level then "high"
        else if (60 : ℚ) < spot.risk_level then "medium" else "low"
      estimated_effort := if (80 : ℚ) < spot.risk_level then "2-4 weeks" else "1-2 weeks" }

/-- The function `generateAnalysis` of lines 163-201, called at clock value `now`. -/
def generateAnalysis (questionnaire : Questionnaire) (responses : Responses)
    (random : Question → ℚ) (now : Nat) : Analysis :=
  let totalQuestions := questionnaire.questions.length
  let negativeResponses := generateAnalysis.negativeResponses responses
  let riskScore := generateAnalysis.riskScore negativeResponses totalQuestions
  let blindSpots := generateAnalysis.blindSpots questionnaire responses random
  { id := toString now
    questionnaire_title := questionnaire.title
    category := questionnaire.category
    blind_spots := blindSpots
    recommendations := generateAnalysis.recommendations blindSpots
    risk_score := riskScore
    priority_areas := (blindSpots.map fun bs => bs.category).eraseDups
    analysis_summary :=
      if riskScore > 70 then
        "Your assessment reveals several critical areas that need immediate attention to prevent potential business risks."
      else if riskScore > 40 then
        "Your business shows good fundamentals with some areas for improvement to optimize performance."
      else
        "Excellent! Your business demonstrates strong practices across most areas with minimal blind spots."
    created_at := now }

/-- The state of the component, lines 154-160. -/
structure AppState where
  currentView : String
  selectedQuestionnaire : Option Questionnaire
  currentQuestionIndex : ℤ
  responses : Responses
  analysisResult : Option Analysis
  isAnalyzing : Bool
  completedAssessments : List Analysis
  deriving DecidableEq

/-- The initial values of lines 154-160. -/
def initialState : AppState where
  currentView := "home"
  selectedQuestionnaire := none
  currentQuestionIndex := 0
  responses := []
  analysisResult := none
  isAnalyzing := false
  completedAssessments := []

/-- The function `handleQuestionnaireSelect` of lines 203-208. -/
def handleQuestionnaireSelect (s : AppState) (questionnaire : Questionnaire) : AppState :=
  { s with
    selectedQuestionnaire := some questionnaire
    currentQuestionIndex := 0
    responses := []
    currentView := "questionnaire" }

/-- The object `{ ...prev, [questionId]: value }`: the value of an existing key
is replaced in place, a new key goes to the end. -/
def setResponse (prev : Responses) (questionId : String) (value : Bool) : Responses :=
  if prev.any (fun e => e.1 == questionId) then
    prev.map fun e => if e.1 == questionId then (questionId, value) else e
  else prev ++ [(questionId, value)]

/-- The function `handleResponse` of lines 210-215. -/
def handleResponse (s : AppState) (questionId : String) (value : Bool) : AppState :=
  { s with responses := setResponse s.responses questionId value }

/-- The function `nextQuestion` of lines 217-221. -/
def nextQuestion (s : AppState) : AppState :=
  match s.selectedQuestionnaire with
  | none => s
  | some questionnaire =>
    if s.currentQuestionIndex < (questionnaire.questions.length : ℤ) - 1 then
      { s with currentQuestionIndex := s.currentQuestionIndex + 1 }
    else s

/-- The function `previousQuestion` of lines 223-227. -/
def previousQuestion (s : AppState) : AppState :=
  if s.currentQuestionIndex > 0 then
    { s with currentQuestionIndex := s.currentQuestionIndex - 1 }
  else s

/-- The function `submitAssessment` of lines 229-241, once its delay is over. -/
def submitAssessment (s : AppState) (random : Question → ℚ) (now : Nat) : AppState :=
  match s.selectedQuestionnaire with
  | none => s
  | some questionnaire =>
    { s with
      analysisResult := some (generateAnalysis questionnaire s.responses random now)
      completedAssessments :=
        s.completedAssessments ++ [generateAnalysis questionnaire s.responses random now]
      currentView := "results"
      isAnalyzing := false }

/-- The element `array[index]` of a list at an integer index: `none` stands
for `undefined`. -/
def elementAt {α : Type} (array : List α) (index : ℤ) : Option α :=
  if index < 0 then none else array.get? index.toNat

/-- What the user can do. -/
inductive Action where
  | select (card : Nat)
  | respond (value : Bool)
  | next
  | previous
  | submit (random : Question → ℚ) (now : Nat)
  | setView (view : String)
  | viewResults (assessment : Nat)

/-- One step of the component.  A card of the list view selects one of
`mockQuestionnaires` (lines 552-556); the radio group answers the current
question (lines 587 and 629) and exists only in the questionnaire view; the
navigation buttons of lines 295-871 set the view to a constant other than
"questionnaire"; line 516 shows a completed assessment. -/
def step (s : AppState) : Action → AppState
  | .select card =>
    match mockQuestionnaires.get? card with
    | none => s
    | some questionnaire => handleQuestionnaireSelect s questionnaire
  | .respond value =>
    match s.selectedQuestionnaire with
    | none => s
    | some questionnaire =>
      if s.currentView = "questionnaire" then
        match elementAt questionnaire.questions s.currentQuestionIndex with
        | none => s
        | some currentQuestion => handleResponse s currentQuestion.id value
      else s
  | .next => nextQuestion s
  | .previous => previousQuestion s
  | .submit random now => submitAssessment s random now
  | .setView view => if view = "questionnaire" then s else { s with currentView := view }
  | .viewResults assessment =>
    match s.completedAssessments.get? assessment with
    | none => s
    | some analysis => { s with analysisResult := some analysis, currentView := "results" }

/-- The state after a sequence of actions, from the initial state. -/
def run (actions : List Action) : AppState :=
  actions.foldl step initialState

/-- A state is reachable when some sequence of actions leads to it. -/
def Reachable (s : AppState) : Prop :=
  ∃ actions : List Action, run actions = s

/-- The invariant of the navigation: the selected questionnaire, when there is
one, is a mock questionnaire and the index points at one of its questions. -/
def InBounds (s : AppState) : Prop :=
  ∀ q, s.selectedQuestionnaire = some q → q ∈ mockQuestionnaires ∧
    0 ≤ s.currentQuestionIndex ∧ s.currentQuestionIndex < (q.questions.length : ℤ)

end BlindSpotDetectorApp

namespace MeetingRoom

/-! ## The fallback choice in double precision -/

/-- Line 204 as the machine computes it:
`botResponses[Math.floor(Math.random() * botResponses.length)]` with `r` the
double returned by `Math.random()` and the product rounded to the nearest
double before `Math.floor`; an index outside the array reads `undefined`. -/
def generateFallbackResponse.pickDouble (botResponses : List String) (r : ℚ) : JsValue :=
  let i : ℤ := ⌊BlindSpotDetectorApp.toDouble (r * (botResponses.length : ℚ))⌋
  if i < 0 then .undefined
  else
    match botResponses.get? i.toNat with
    | some s => .string s
    | none => .undefined

/-- The function `generateFallbackResponse` of lines 167-205, with the
arithmetic of line 204 in double precision. -/
def generateFallbackResponseDouble (bot : Bot) (_userMessage : String) (r : ℚ) : JsValue :=
  match generateFallbackResponse.responses.lookup bot.id with
  | some botResponses => generateFallbackResponse.pickDouble botResponses r
  | none =>
    if bot.id ∈ generateFallbackResponse.inherited then .undefined
    else generateFallbackResponse.pickDouble generateFallbackResponse.generic r

/-! ## Lemmas on the embedding -/

section Lemmas

/-- The search `includesChars` decides the contiguous-sublist relation. -/
theorem includesChars_iff (hay needle : List Char) :
    includesChars hay needle = true ↔ needle <:+: hay := by
  induction hay with
  | nil => cases needle <;> simp [includesChars]
  | cons c cs ih =>
    simp only [includesChars, Bool.or_eq_true, ih, List.isPrefixOf_iff_prefix]
    rw [List.infix_cons_iff]

/-- The keyword test of line 136 holds exactly when some keyword, lower-cased,
is a contiguous part of the lower-cased message. -/
theorem hasKeyword_iff (bot : Bot) (userMessage : String) :
    hasKeyword bot userMessage = true ↔
      ∃ keyword ∈ bot.keywords, (toLowerCase keyword).data <:+: (toLowerCase userMessage).data := by
  simp [hasKeyword, includes, includesChars_iff]

/-- Without a keyword match the early return of line 138 is decided by the draw alone. -/
theorem filteredOut_of_not_hasKeyword {K : Type} [LinearOrderedField K] (bot : Bot) (userMessage : String)
    (h : hasKeyword bot userMessage = false) (r : K) :
    filteredOut bot userMessage r = false ↔ r ≤ 3 / 10 := by
  simp [filteredOut, h]

/-- The response generator never throws: the `catch` clause absorbs every error. -/
theorem generateBotResponseWithGemini_ok {K : Type} [LinearOrderedField K] [FloorRing K] 
    (bot : Bot) (userMessage : String) (env : PersonaEnv K) :
    ∃ v, generateBotResponseWithGemini bot userMessage env = .ok v := by
  unfold generateBotResponseWithGemini generateBotResponseWithGemini.tryCatch
  split
  · exact ⟨_, rfl⟩
  · split <;> exact ⟨_, rfl⟩

/-- On a non-empty table, a draw of `[0,1)` picks one of the strings of the table. -/
theorem pick_mem {K : Type} [LinearOrderedField K] [FloorRing K]
    (table : List String) (r : K) (hne : table ≠ []) (h0 : 0 ≤ r) (h1 : r < 1) :
    ∃ s ∈ table, generateFallbackResponse.pick table r = .string s := by
  have hlen : (0 : K) < (table.length : K) := by
    exact_mod_cast List.length_pos.2 hne
  have hi0 : (0 : ℤ) ≤ ⌊r * (table.length : K)⌋ :=
    Int.floor_nonneg.2 (mul_nonneg h0 hlen.le)
  have hi1 : ⌊r * (table.length : K)⌋ < (table.length : ℤ) := by
    rw [Int.floor_lt]
    have : r * (table.length : K) < 1 * (table.length : K) := mul_lt_mul_of_pos_right h1 hlen
    simpa using this
  have hlt : ⌊r * (table.length : K)⌋.toNat < table.length := by omega
  refine ⟨table.get ⟨_, hlt⟩, List.get_mem _ _ _, ?_⟩
  unfold generateFallbackResponse.pick
  simp only [not_lt.2 hi0, if_false, List.get?_eq_get hlt]

/-- Every persona of the registry has its own bucket of three strings in the
fallback table. -/
theorem responses_lookup_of_mem (bot : Bot) (hbot : bot ∈ AI_BOTS) :
    ∃ table, generateFallbackResponse.responses.lookup bot.id = some table ∧ table.length = 3 := by
  have key : ∀ b ∈ AI_BOTS,
      (generateFallbackResponse.responses.lookup b.id).map List.length = some 3 := by decide
  have h := key bot hbot
  rw [Option.map_eq_some'] at h
  exact h

/-- For a persona of the registry and a draw of `[0,1)`, the fallback is one of
the strings of the persona's own bucket. -/
theorem generateFallbackResponse_mem {K : Type} [LinearOrderedField K] [FloorRing K]
    (bot : Bot) (hbot : bot ∈ AI_BOTS) (userMessage : String) (r : K) (h0 : 0 ≤ r) (h1 : r < 1) :
    ∃ table s, generateFallbackResponse.responses.lookup bot.id = some table ∧ s ∈ table ∧
      generateFallbackResponse bot userMessage r = .string s := by
  obtain ⟨table, htable, hlen⟩ := responses_lookup_of_mem bot hbot
  have hne : table ≠ [] := by
    intro h
    simp [h] at hlen
  obtain ⟨s, hs, hpick⟩ := pick_mem table r hne h0 h1
  exact ⟨table, s, htable, hs, by simp [generateFallbackResponse, htable, hpick]⟩

/-- A persona task never throws, and what it returns is fixed by the
persona's own environment: nothing, or a pending response that carries the
persona, the truthy value of the generator and the delay of line 219. -/
theorem task_spec {K : Type} [LinearOrderedField K] [FloorRing K]
    (userInput : String) (env : Bot → PersonaEnv K) (bot : Bot) :
    ∃ response, generateBotResponseWithGemini bot userInput (env bot) = .ok response ∧
      handleSendMessage.task userInput env bot =
        .ok (if response.truthy then
          some { bot := bot, response := response, delay := (env bot).delayDraw * 2000 + 500 }
        else none) := by
  obtain ⟨v, hv⟩ := generateBotResponseWithGemini_ok bot userInput (env bot)
  refine ⟨v, hv, ?_⟩
  unfold handleSendMessage.task
  rw [hv]
  by_cases ht : v.truthy = true <;> simp [ht]

/-- A persona task reads the environment of its own persona only. -/
theorem task_congr {K : Type} [LinearOrderedField K] [FloorRing K]
    (userInput : String) (env env' : Bot → PersonaEnv K) (bot : Bot) (h : env bot = env' bot) :
    handleSendMessage.task userInput env bot = handleSendMessage.task userInput env' bot := by
  unfold handleSendMessage.task
  rw [h]

/-- Two mapped lists that are equal agree slot by slot. -/
theorem map_get_eq {α β γ : Type} (f : β → γ) (g : α → γ) (l : List β) (vs : List α)
    (h : l.map f = vs.map g) (i : Nat) (hi : i < l.length) (hi' : i < vs.length) :
    f (l.get ⟨i, hi⟩) = g (vs.get ⟨i, hi'⟩) := by
  have h1 : (l.map f)[i]? = (vs.map g)[i]? := by rw [h]
  rw [List.getElem?_map, List.getElem?_map, List.getElem?_eq_getElem hi,
    List.getElem?_eq_getElem hi'] at h1
  simpa using h1

/-- When every promise is fulfilled, `promiseAll` is fulfilled with the list of
the values, in order. -/
theorem promiseAll_map {α β : Type} (l : List β) (f : β → Except JsError α)
    (hf : ∀ b ∈ l, ∃ v, f b = .ok v) :
    ∃ vs, promiseAll (l.map f) = .ok vs ∧ l.map f = vs.map .ok := by
  induction l with
  | nil => exact ⟨[], rfl, rfl⟩
  | cons b bs ih =>
    obtain ⟨v, hv⟩ := hf b (List.mem_cons_self _ _)
    obtain ⟨vs, hvs, hmap⟩ := ih (fun x hx => hf x (List.mem_cons_of_mem _ hx))
    refine ⟨v :: vs, ?_, ?_⟩
    · simp only [List.map_cons, promiseAll, hv, hvs]
    · simp only [List.map_cons, hv, hmap]

/-- The awaited `Promise.all` of lines 213-225 is always fulfilled; its list of
results has one slot for each persona of `AI_BOTS`, in order, and slot `i` is
the result of the task of persona `i`. -/
theorem responses_spec {K : Type} [LinearOrderedField K] [FloorRing K]
    (userInput : String) (env : Bot → PersonaEnv K) :
    ∃ rs, handleSendMessage.responses userInput env = .ok rs ∧
      AI_BOTS.map (handleSendMessage.task userInput env) = rs.map .ok := by
  unfold handleSendMessage.responses
  apply promiseAll_map
  intro b _
  obtain ⟨v, -, hv⟩ := task_spec userInput env b
  exact ⟨_, hv⟩

/-- The awaited results, slot by slot, as a function of the persona tasks. -/
theorem responses_eq_map {K : Type} [LinearOrderedField K] [FloorRing K]
    (userInput : String) (env : Bot → PersonaEnv K) :
    handleSendMessage.responses userInput env =
      .ok (AI_BOTS.map fun b => (handleSendMessage.task userInput env b).toOption.join) := by
  obtain ⟨rs, hrs, hmap⟩ := responses_spec userInput env
  rw [hrs]
  have h := congrArg (List.map fun e => (Except.toOption e).join) hmap
  simp only [List.map_map] at h
  have hid : ((fun e => (Except.toOption e).join) ∘
      (Except.ok : Option (PendingResponse K) → Except JsError (Option (PendingResponse K)))) =
      id := by
    funext v
    simp [Except.toOption]
  rw [hid, List.map_id] at h
  rw [← h]
  rfl

/-- In a list without repetition, the items produced for one key are counted
by whether that key produces an item. -/
theorem countP_filterMap_key {α β : Type} [DecidableEq β] (f : β → Option α) (key : α → β)
    (hkey : ∀ b a, f b = some a → key a = b) (p : β) (l : List β) (hl : l.Nodup) :
    (l.filterMap f).countP (fun a => decide (key a = p)) =
      if p ∈ l ∧ (f p).isSome = true then 1 else 0 := by
  induction l with
  | nil => simp
  | cons b bs ih =>
    obtain ⟨hb, hbs⟩ := List.nodup_cons.1 hl
    have ih' := ih hbs
    by_cases hpb : p = b
    · subst hpb
      have hzero : (bs.filterMap f).countP (fun a => decide (key a = p)) = 0 := by
        rw [ih', if_neg]
        exact fun h => hb h.1
      cases hf : f p with
      | none => simp [List.filterMap_cons, hf, hzero]
      | some a =>
        have hk := hkey p a hf
        simp [List.filterMap_cons, hf, hzero, hk]
    · have hmem : (p ∈ b :: bs ∧ (f p).isSome = true) ↔ (p ∈ bs ∧ (f p).isSome = true) := by
        simp [hpb]
      cases hf : f b with
      | none =>
        simp only [List.filterMap_cons, hf, ih']
        exact if_congr hmem.symm rfl rfl
      | some a =>
        have hk := hkey b a hf
        have hne : ¬ key a = p := fun h => hpb (by rw [← h, hk])
        simp only [List.filterMap_cons, hf, List.countP_cons, hne, decide_False, ih']
        simp only [Bool.false_eq_true, if_false, add_zero]
        exact if_congr hmem.symm rfl rfl

/-- The registry lists each persona once. -/
theorem AI_BOTS_nodup : AI_BOTS.Nodup := by decide

/-- No string of a persona's bucket of the fallback table is empty. -/
theorem fallback_strings_nonempty (bot : Bot) (hbot : bot ∈ AI_BOTS) (table : List String)
    (htable : generateFallbackResponse.responses.lookup bot.id = some table)
    (s : String) (hs : s ∈ table) : (JsValue.string s).truthy = true := by
  have key : ∀ b ∈ AI_BOTS,
      (generateFallbackResponse.responses.lookup b.id).map
        (fun t => t.all fun x => (JsValue.string x).truthy) = some true := by decide
  have h := key bot hbot
  rw [htable] at h
  simp only [Option.map_some', Option.some.injEq, List.all_eq_true] at h
  exact h s hs

/-- The function `handleSendMessage` always returns normally. -/
theorem handleSendMessage_ok {K : Type} [LinearOrderedField K] [FloorRing K]
    (s : MeetingState K) (env : Bot → PersonaEnv K) :
    ∃ s', handleSendMessage s env = .ok s' := by
  unfold handleSendMessage
  split
  · exact ⟨_, rfl⟩
  · obtain ⟨rs, hrs, -⟩ := responses_spec s.userInput env
    rw [hrs]
    exact ⟨_, rfl⟩

/-- The function `handleSendMessage` changes neither the transcript nor the
started flag. -/
theorem handleSendMessage_frame {K : Type} [LinearOrderedField K] [FloorRing K]
    (s s' : MeetingState K) (env : Bot → PersonaEnv K) (h : handleSendMessage s env = .ok s') :
    s'.chatMessages = s.chatMessages ∧ s'.meetingStarted = s.meetingStarted := by
  unfold handleSendMessage at h
  split at h
  · cases h
    exact ⟨rfl, rfl⟩
  · rw [responses_eq_map] at h
    cases h
    exact ⟨rfl, rfl⟩

/-- Every step keeps `Idle`. -/
theorem idle_step {K : Type} [LinearOrderedField K] [FloorRing K]
    (s : MeetingState K) (e : Event K) (hs : Idle s) : Idle (step s e) := by
  cases e with
  | clickStart now =>
    by_cases h : s.meetingStarted = true
    · simpa [step, h] using hs
    · intro h'
      simp [step, h, startMeeting] at h'
  | typeInput text =>
    by_cases h : (s.meetingStarted && !s.isLoading) = true
    · simp only [step, h, if_true]
      exact hs
    · simp only [step, h, if_false]
      exact hs
  | send env =>
    by_cases h : (s.meetingStarted && !s.isLoading) = true
    · obtain ⟨s', hs'⟩ := handleSendMessage_ok s env
      have hstarted : s.meetingStarted = true := by
        simp only [Bool.and_eq_true] at h
        exact h.1
      intro h'
      simp only [step, h, if_true, hs'] at h'
      rw [(handleSendMessage_frame s s' env hs').2, hstarted] at h'
      exact absurd h' (by simp)
    · simp only [step, h, if_false]
      exact hs
  | timeout i now =>
    show Idle (fireTimer s i now)
    unfold fireTimer
    cases hget : s.timers.get? i with
    | none => exact hs
    | some p =>
      intro h'
      have hnil := (hs h').2
      rw [hnil] at hget
      simp at hget
  | tick =>
    show Idle (tick s)
    unfold tick
    split
    · exact hs
    · exact hs
  | clickBot id => exact hs

/-- Every reachable state is `Idle`. -/
theorem idle_of_reachable {K : Type} [LinearOrderedField K] [FloorRing K]
    (s : MeetingState K) (hs : Reachable s) : Idle s := by
  obtain ⟨events, rfl⟩ := hs
  unfold run
  induction events using List.reverseRecOn with
  | nil =>
    intro _
    exact ⟨rfl, rfl⟩
  | append_singleton es e ih =>
    rw [List.foldl_append]
    exact idle_step _ e ih

/-- One step from an `Idle` state extends the transcript at its end. -/
theorem prefix_step {K : Type} [LinearOrderedField K] [FloorRing K]
    (s : MeetingState K) (e : Event K) (hs : Idle s) :
    s.chatMessages <+: (step s e).chatMessages := by
  cases e with
  | clickStart now =>
    by_cases h : s.meetingStarted = true
    · simp [step, h]
    · have hnil := (hs (by simpa using h)).1
      rw [hnil]
      exact List.nil_prefix
  | typeInput text =>
    by_cases h : (s.meetingStarted && !s.isLoading) = true
    · simp only [step, h, if_true]
      exact List.prefix_refl _
    · simp only [step, h, if_false]
      exact List.prefix_refl _
  | send env =>
    by_cases h : (s.meetingStarted && !s.isLoading) = true
    · obtain ⟨s', hs'⟩ := handleSendMessage_ok s env
      simp only [step, h, if_true, hs']
      rw [(handleSendMessage_frame s s' env hs').1]
    · simp only [step, h, if_false]
      exact List.prefix_refl _
  | timeout i now =>
    show s.chatMessages <+: (fireTimer s i now).chatMessages
    unfold fireTimer
    cases hget : s.timers.get? i with
    | none => exact List.prefix_refl _
    | some p => exact List.prefix_append _ _
  | tick =>
    show s.chatMessages <+: (tick s).chatMessages
    unfold tick
    split
    · exact List.prefix_refl _
    · exact List.prefix_refl _
  | clickBot id => exact List.prefix_refl _

/-- Any sequence of steps from an `Idle` state extends the transcript at its end. -/
theorem prefix_foldl {K : Type} [LinearOrderedField K] [FloorRing K]
    (events : List (Event K)) (s : MeetingState K) (hs : Idle s) :
    s.chatMessages <+: (events.foldl step s).chatMessages := by
  induction events generalizing s with
  | nil => exact List.prefix_refl _
  | cons e es ih =>
    rw [List.foldl_cons]
    exact (prefix_step s e hs).trans (ih (step s e) (idle_step s e hs))

end Lemmas

/-! ## Relevance filter: claims C1, C2 and C10 -/

section RelevanceFilter

/-- C1: when the lower-cased message contains the lower-cased form of one of the
persona's keywords as a substring, the persona passes the relevance filter
whatever the draw is: the early `return null` is not taken, and the function
returns what its `try`/`catch` statement returns.  This holds for every
persona, those of `AI_BOTS` included. -/
theorem keyword_match_selects {K : Type} [LinearOrderedField K] [FloorRing K] 
    (bot : Bot) (userMessage : String)
    (h : ∃ keyword ∈ bot.keywords,
      (toLowerCase keyword).data <:+: (toLowerCase userMessage).data)
    (env : PersonaEnv K) :
    filteredOut bot userMessage env.filterDraw = false ∧
      generateBotResponseWithGemini bot userMessage env =
        generateBotResponseWithGemini.tryCatch bot userMessage env := by
  have hk : hasKeyword bot userMessage = true := (hasKeyword_iff bot userMessage).2 h
  have hf : filteredOut bot userMessage env.filterDraw = false := by
    simp [filteredOut, hk]
  exact ⟨hf, by simp [generateBotResponseWithGemini, hf]⟩

/-- C2: a persona without a keyword match in the message is selected exactly
when its draw `r` is at most 0.3; the draws of `[0,1)` that select it form a set
of Lebesgue measure 0.3; the decision reads the persona's own draw only (two
assignments of draws to personas that agree on this persona's draw give the
same decision); and a draw above 0.3 makes the function return `null`. -/
theorem no_keyword_selected_iff_draw {K : Type} [LinearOrderedField K] [FloorRing K] 
    (bot : Bot) (userMessage : String)
    (h : hasKeyword bot userMessage = false) :
    (∀ r : K, filteredOut bot userMessage r = false ↔ r ≤ 3 / 10) ∧
      MeasureTheory.volume
          {r : ℝ | 0 ≤ r ∧ r < 1 ∧ filteredOut bot userMessage r = false} =
        ENNReal.ofReal (3 / 10) ∧
      (∀ env env' : Bot → PersonaEnv K, (env bot).filterDraw = (env' bot).filterDraw →
        filteredOut bot userMessage (env bot).filterDraw =
          filteredOut bot userMessage (env' bot).filterDraw) ∧
      (∀ env : PersonaEnv K, 3 / 10 < env.filterDraw →
        generateBotResponseWithGemini bot userMessage env = .ok .null) := by
  refine ⟨filteredOut_of_not_hasKeyword bot userMessage h, ?_, ?_, ?_⟩
  · have hset : {r : ℝ | 0 ≤ r ∧ r < 1 ∧ filteredOut bot userMessage r = false} =
        Set.Icc 0 (3 / 10) := by
      ext r
      simp only [Set.mem_setOf_eq, Set.mem_Icc, filteredOut_of_not_hasKeyword bot userMessage h]
      constructor
      · rintro ⟨h0, -, h3⟩
        exact ⟨h0, h3⟩
      · rintro ⟨h0, h3⟩
        exact ⟨h0, by linarith, h3⟩
    rw [hset, Real.volume_Icc]
    norm_num
  · intro env env' hdraw
    rw [hdraw]
  · intro env hr
    have h1 : filteredOut bot userMessage env.filterDraw = true := by
      simpa [filteredOut, h] using hr
    simp [generateBotResponseWithGemini, h1]

/-- C1, at a concrete input: the finance persona and a message with the keyword
in capitals, with a draw of 0.9 and a failed network call. -/
theorem keyword_match_selects_witness :
    (∃ keyword ∈ (AI_BOTS.get ⟨4, by decide⟩).keywords,
      (toLowerCase keyword).data <:+: (toLowerCase "Our BUDGET is small").data) ∧
    filteredOut (AI_BOTS.get ⟨4, by decide⟩) "Our BUDGET is small"
      (PersonaEnv.mk (9 / 10 : ℚ) .rejected 0 0).filterDraw = false ∧
    generateBotResponseWithGemini (AI_BOTS.get ⟨4, by decide⟩) "Our BUDGET is small"
        (PersonaEnv.mk (9 / 10 : ℚ) .rejected 0 0) =
      generateBotResponseWithGemini.tryCatch (AI_BOTS.get ⟨4, by decide⟩) "Our BUDGET is small"
        (PersonaEnv.mk (9 / 10 : ℚ) .rejected 0 0) :=
  have h : ∃ keyword ∈ (AI_BOTS.get ⟨4, by decide⟩).keywords,
      (toLowerCase keyword).data <:+: (toLowerCase "Our BUDGET is small").data :=
    ⟨"budget", by decide, (includesChars_iff _ _).1 (by decide)⟩
  ⟨h, keyword_match_selects _ _ h _⟩

/-- C2, at a concrete input: the strategist persona and the message "hello". -/
theorem no_keyword_selected_iff_draw_witness :
    hasKeyword (AI_BOTS.get ⟨0, by decide⟩) "hello" = false ∧
    ((∀ r : ℚ, filteredOut (AI_BOTS.get ⟨0, by decide⟩) "hello" r = false ↔ r ≤ 3 / 10) ∧
      MeasureTheory.volume
          {r : ℝ | 0 ≤ r ∧ r < 1 ∧ filteredOut (AI_BOTS.get ⟨0, by decide⟩) "hello" r = false} =
        ENNReal.ofReal (3 / 10) ∧
      (∀ env env' : Bot → PersonaEnv ℚ,
        (env (AI_BOTS.get ⟨0, by decide⟩)).filterDraw =
          (env' (AI_BOTS.get ⟨0, by decide⟩)).filterDraw →
        filteredOut (AI_BOTS.get ⟨0, by decide⟩) "hello" (env (AI_BOTS.get ⟨0, by decide⟩)).filterDraw =
          filteredOut (AI_BOTS.get ⟨0, by decide⟩) "hello"
            (env' (AI_BOTS.get ⟨0, by decide⟩)).filterDraw) ∧
      (∀ env : PersonaEnv ℚ, 3 / 10 < env.filterDraw →
        generateBotResponseWithGemini (AI_BOTS.get ⟨0, by decide⟩) "hello" env = .ok .null)) :=
  ⟨by decide, no_keyword_selected_iff_draw _ _ (by decide)⟩

/-- C10: for the message of scenario A, the finance persona (keyword "budget")
and the marketing persona (keywords "campaign" and "marketing") of `AI_BOTS`
have a keyword match and pass the relevance filter for every value of the draw. -/
theorem scenario_A_keyword_personas {K : Type} [LinearOrderedField K]
    (bot : Bot) (hbot : bot ∈ AI_BOTS) (hid : bot.id = "finance" ∨ bot.id = "marketing") (r : K) :
    (bot.id = "finance" → "budget" ∈ bot.keywords ∧
      includes (toLowerCase "What's our marketing budget for this campaign?")
        (toLowerCase "budget") = true) ∧
    (bot.id = "marketing" → "campaign" ∈ bot.keywords ∧ "marketing" ∈ bot.keywords ∧
      includes (toLowerCase "What's our marketing budget for this campaign?")
        (toLowerCase "campaign") = true ∧
      includes (toLowerCase "What's our marketing budget for this campaign?")
        (toLowerCase "marketing") = true) ∧
    hasKeyword bot "What's our marketing budget for this campaign?" = true ∧
    filteredOut bot "What's our marketing budget for this campaign?" r = false := by
  have key : ∀ b ∈ AI_BOTS, (b.id = "finance" ∨ b.id = "marketing") →
      (b.id = "finance" → "budget" ∈ b.keywords ∧
        includes (toLowerCase "What's our marketing budget for this campaign?")
          (toLowerCase "budget") = true) ∧
      (b.id = "marketing" → "campaign" ∈ b.keywords ∧ "marketing" ∈ b.keywords ∧
        includes (toLowerCase "What's our marketing budget for this campaign?")
          (toLowerCase "campaign") = true ∧
        includes (toLowerCase "What's our marketing budget for this campaign?")
          (toLowerCase "marketing") = true) ∧
      hasKeyword b "What's our marketing budget for this campaign?" = true := by
    decide
  obtain ⟨h1, h2, h3⟩ := key bot hbot hid
  exact ⟨h1, h2, h3, by simp [filteredOut, h3]⟩

/-- C10, at the two personas it names, with a draw of 0.99. -/
theorem scenario_A_keyword_personas_witness :
    (AI_BOTS.get ⟨4, by decide⟩).id = "finance" ∧ (AI_BOTS.get ⟨3, by decide⟩).id = "marketing" ∧
    filteredOut (AI_BOTS.get ⟨4, by decide⟩) "What's our marketing budget for this campaign?"
      (99 / 100 : ℚ) = false ∧
    filteredOut (AI_BOTS.get ⟨3, by decide⟩) "What's our marketing budget for this campaign?"
      (99 / 100 : ℚ) = false :=
  ⟨by decide, by decide,
    (scenario_A_keyword_personas (AI_BOTS.get ⟨4, by decide⟩) (by decide) (Or.inl (by decide))
      (99 / 100 : ℚ)).2.2.2,
    (scenario_A_keyword_personas (AI_BOTS.get ⟨3, by decide⟩) (by decide) (Or.inr (by decide))
      (99 / 100 : ℚ)).2.2.2⟩

end RelevanceFilter

/-! ## Response generator: claims C4 and C5 -/

section ResponseGenerator

/-- C4: for a persona of `AI_BOTS` that passed the relevance filter, when the
network call is rejected or answers with a status outside 200-299 (500 for
example), `generateBotResponseWithGemini` returns normally (no exception
reaches the caller) and its value is one of the strings of that persona's own
bucket of the fallback table. -/
theorem fallback_on_failed_call {K : Type} [LinearOrderedField K] [FloorRing K]
    (bot : Bot) (hbot : bot ∈ AI_BOTS) (userMessage : String) (env : PersonaEnv K)
    (hsel : filteredOut bot userMessage env.filterDraw = false)
    (h0 : 0 ≤ env.fallbackDraw) (h1 : env.fallbackDraw < 1)
    (hfail : env.outcome = .rejected ∨
      ∃ status body, env.outcome = .response status body ∧ statusOk status = false) :
    ∃ table s, generateFallbackResponse.responses.lookup bot.id = some table ∧ s ∈ table ∧
      generateBotResponseWithGemini bot userMessage env = .ok (.string s) := by
  obtain ⟨table, s, htable, hs, hfb⟩ :=
    generateFallbackResponse_mem bot hbot userMessage env.fallbackDraw h0 h1
  refine ⟨table, s, htable, hs, ?_⟩
  have htry : ∃ e, generateBotResponseWithGemini.tryBlock env.outcome = .error e := by
    rcases hfail with h | ⟨status, body, h, hok⟩
    · exact ⟨.typeError, by rw [h]; rfl⟩
    · exact ⟨.error "Failed to get AI response", by
        rw [h]; simp [generateBotResponseWithGemini.tryBlock, hok]⟩
  obtain ⟨e, he⟩ := htry
  simp [generateBotResponseWithGemini, generateBotResponseWithGemini.tryCatch, hsel, he, hfb]

/-- C4, at a concrete input: the tech persona, the message "hello" with a
filter draw of 0.1, a response with status 500, and a fallback draw of 0.5:
the second string of the tech bucket is returned. -/
theorem fallback_on_failed_call_witness :
    ∃ table s, generateFallbackResponse.responses.lookup (AI_BOTS.get ⟨2, by decide⟩).id =
        some table ∧ s ∈ table ∧
      generateBotResponseWithGemini (AI_BOTS.get ⟨2, by decide⟩) "hello"
        (PersonaEnv.mk (1 / 10 : ℚ) (.response 500 (some (.object .undefined))) (1 / 2) 0) =
          .ok (.string s) :=
  fallback_on_failed_call (AI_BOTS.get ⟨2, by decide⟩) (by decide) "hello"
    (PersonaEnv.mk (1 / 10 : ℚ) (.response 500 (some (.object .undefined))) (1 / 2) 0)
    (by
      have h : hasKeyword (AI_BOTS.get ⟨2, by decide⟩) "hello" = false := by decide
      simp only [filteredOut, h]
      norm_num)
    (by norm_num) (by norm_num) (Or.inr ⟨500, _, rfl, by decide⟩)

end ResponseGenerator

/-! ## Staggered delivery: claims C7 and C8 -/

section Scheduler

/-- C7: when the delay draw of every persona lies in `[0,1)`, `Promise.all` is
fulfilled and every pending response it yields carries the delay
`r * 2000 + 500` of its persona's draw `r`, which lies in the closed interval
from 500 to 2500 milliseconds. -/
theorem pending_delay_in_range {K : Type} [LinearOrderedField K] [FloorRing K]
    (userInput : String) (env : Bot → PersonaEnv K)
    (hdraw : ∀ bot ∈ AI_BOTS, 0 ≤ (env bot).delayDraw ∧ (env bot).delayDraw < 1) :
    ∃ rs, handleSendMessage.responses userInput env = .ok rs ∧
      ∀ p, some p ∈ rs →
        p.delay = (env p.bot).delayDraw * 2000 + 500 ∧ 500 ≤ p.delay ∧ p.delay ≤ 2500 := by
  obtain ⟨rs, hrs, hmap⟩ := responses_spec userInput env
  refine ⟨rs, hrs, ?_⟩
  intro p hp
  have hmem : (Except.ok (some p) : Except JsError (Option (PendingResponse K))) ∈
      AI_BOTS.map (handleSendMessage.task userInput env) := by
    rw [hmap]
    exact List.mem_map_of_mem _ hp
  obtain ⟨bot, hbot, htask⟩ := List.mem_map.1 hmem
  obtain ⟨response, -, hspec⟩ := task_spec userInput env bot
  rw [hspec] at htask
  have hsome : (if response.truthy then
      some ({ bot := bot, response := response, delay := (env bot).delayDraw * 2000 + 500 } :
        PendingResponse K)
      else none) = some p := Except.ok.inj htask
  by_cases ht : response.truthy = true
  · rw [if_pos ht] at hsome
    have hp' := Option.some.inj hsome
    subst hp'
    obtain ⟨h0, h1⟩ := hdraw bot hbot
    refine ⟨rfl, ?_, ?_⟩
    · show 500 ≤ (env bot).delayDraw * 2000 + 500
      linarith
    · show (env bot).delayDraw * 2000 + 500 ≤ 2500
      linarith
  · rw [if_neg ht] at hsome
    exact absurd hsome (by simp)

/-- C7, at a concrete input: every persona draws 0.5 for its delay and its
network call is rejected; the six pending responses all carry 1500 ms. -/
theorem pending_delay_in_range_witness :
    (∃ rs, handleSendMessage.responses "budget"
        (fun _ => PersonaEnv.mk (0 : ℚ) .rejected 0 (1 / 2)) = .ok rs ∧
      ∀ p, some p ∈ rs →
        p.delay = (1 / 2 : ℚ) * 2000 + 500 ∧ 500 ≤ p.delay ∧ p.delay ≤ 2500) ∧
    ((handleSendMessage.responses "budget"
        (fun _ => PersonaEnv.mk (0 : ℚ) .rejected 0 (1 / 2))).toOption.map
      fun rs => rs.map fun r => r.map fun p => p.delay) =
        some [some 1500, some 1500, some 1500, some 1500, some 1500, some 1500] :=
  ⟨pending_delay_in_range "budget" (fun _ => PersonaEnv.mk (0 : ℚ) .rejected 0 (1 / 2))
    (fun _ _ => ⟨by norm_num, by norm_num⟩), by decide!⟩

/-- C8: two runs of one submission that give persona number `i` of `AI_BOTS`
the same draws and the same end of its network call, and differ in any way on
the other personas, both complete without an error and agree on slot `i` of
the awaited results: the same absence, or the same pending response (persona,
text and delay). -/
theorem persona_pipelines_independent {K : Type} [LinearOrderedField K] [FloorRing K]
    (s : MeetingState K) (env env' : Bot → PersonaEnv K) (i : Nat) (hi : i < AI_BOTS.length)
    (hagree : env (AI_BOTS.get ⟨i, hi⟩) = env' (AI_BOTS.get ⟨i, hi⟩)) :
    ∃ rs rs' slot s₁ s₂,
      handleSendMessage.responses s.userInput env = .ok rs ∧
      handleSendMessage.responses s.userInput env' = .ok rs' ∧
      rs.get? i = some slot ∧ rs'.get? i = some slot ∧
      handleSendMessage.task s.userInput env (AI_BOTS.get ⟨i, hi⟩) = .ok slot ∧
      handleSendMessage s env = .ok s₁ ∧ handleSendMessage s env' = .ok s₂ := by
  obtain ⟨rs, hrs, hmap⟩ := responses_spec s.userInput env
  obtain ⟨rs', hrs', hmap'⟩ := responses_spec s.userInput env'
  obtain ⟨s₁, hs₁⟩ := handleSendMessage_ok s env
  obtain ⟨s₂, hs₂⟩ := handleSendMessage_ok s env'
  have hlen : rs.length = AI_BOTS.length := by
    simpa using (congrArg List.length hmap).symm
  have hlen' : rs'.length = AI_BOTS.length := by
    simpa using (congrArg List.length hmap').symm
  have hget : handleSendMessage.task s.userInput env (AI_BOTS.get ⟨i, hi⟩) =
      .ok (rs.get ⟨i, hlen ▸ hi⟩) :=
    map_get_eq _ _ _ _ hmap i hi (hlen ▸ hi)
  have hget' : handleSendMessage.task s.userInput env' (AI_BOTS.get ⟨i, hi⟩) =
      .ok (rs'.get ⟨i, hlen' ▸ hi⟩) :=
    map_get_eq _ _ _ _ hmap' i hi (hlen' ▸ hi)
  have hsame : rs'.get ⟨i, hlen' ▸ hi⟩ = rs.get ⟨i, hlen ▸ hi⟩ := by
    rw [task_congr s.userInput env env' _ hagree, hget'] at hget
    exact Except.ok.inj hget
  refine ⟨rs, rs', rs.get ⟨i, hlen ▸ hi⟩, s₁, s₂, hrs, hrs', ?_, ?_, hget, hs₁, hs₂⟩
  · exact List.get?_eq_get _
  · rw [← hsame]
    exact List.get?_eq_get _

/-- C8, at a concrete input: the message "budget"; in the first run every call
is rejected, in the second the calls of all personas but finance succeed with
the text "Hi"; persona number 4 is finance and its environment is the same. -/
theorem persona_pipelines_independent_witness :
    ∃ rs rs' slot s₁ s₂,
      handleSendMessage.responses
        (run [.clickStart 0, .typeInput "budget"] : MeetingState ℚ).userInput
        (fun _ => PersonaEnv.mk (0 : ℚ) .rejected 0 0) = .ok rs ∧
      handleSendMessage.responses
        (run [.clickStart 0, .typeInput "budget"] : MeetingState ℚ).userInput
        (fun b => if b.id = "finance" then PersonaEnv.mk (0 : ℚ) .rejected 0 0
          else PersonaEnv.mk 0 (.response 200 (some (.object (.string "Hi")))) 0 0) = .ok rs' ∧
      rs.get? 4 = some slot ∧ rs'.get? 4 = some slot ∧
      handleSendMessage.task
        (run [.clickStart 0, .typeInput "budget"] : MeetingState ℚ).userInput
        (fun _ => PersonaEnv.mk (0 : ℚ) .rejected 0 0) (AI_BOTS.get ⟨4, by decide⟩) = .ok slot ∧
      handleSendMessage (run [.clickStart 0, .typeInput "budget"])
        (fun _ => PersonaEnv.mk (0 : ℚ) .rejected 0 0) = .ok s₁ ∧
      handleSendMessage (run [.clickStart 0, .typeInput "budget"])
        (fun b => if b.id = "finance" then PersonaEnv.mk (0 : ℚ) .rejected 0 0
          else PersonaEnv.mk 0 (.response 200 (some (.object (.string "Hi")))) 0 0) = .ok s₂ :=
  persona_pipelines_independent (run [.clickStart 0, .typeInput "budget"])
    (fun _ => PersonaEnv.mk (0 : ℚ) .rejected 0 0)
    (fun b => if b.id = "finance" then PersonaEnv.mk (0 : ℚ) .rejected 0 0
      else PersonaEnv.mk 0 (.response 200 (some (.object (.string "Hi")))) 0 0)
    4 (by decide) rfl

end Scheduler

/-! ## Entries per persona and malformed bodies: claims C3 and C5 -/

section Entries

/-- C3, as stated, fails: in a started meeting with the message "budget", every
persona selected (draw 0) and every call answered with status 200 and the body
`{"message": ""}`, the finance persona passes the filter and yet
`handleSendMessage` registers no timer at all, so no entry is scheduled for it. -/
theorem empty_text_schedules_no_entry :
    filteredOut (AI_BOTS.get ⟨4, by decide⟩) "budget" (0 : ℚ) = false ∧
    ((handleSendMessage (run [.clickStart 0, .typeInput "budget"])
        (fun _ => PersonaEnv.mk (0 : ℚ) (.response 200 (some (.object (.string "")))) 0 0)).toOption.map
      fun s' => s'.timers.length) = some 0 := by
  decide!

/-- C3, amended: for a non-blank message submitted in a started meeting and a
persona of `AI_BOTS`, `handleSendMessage` returns normally and the timers it
registers hold exactly one pending response of that persona when the value
returned by the generator is truthy, and none when it is falsy; never more
than one.  The pending response carries that value.  For a persona that
passed the filter the value is truthy on every failure path with a fallback
draw of `[0,1)` (rejected call, status outside 200-299, unparseable body), and
it is the `message` property of the body on a parsed success. -/
theorem one_timer_per_truthy_response {K : Type} [LinearOrderedField K] [FloorRing K]
    (s : MeetingState K) (env : Bot → PersonaEnv K) (bot : Bot) (hbot : bot ∈ AI_BOTS)
    (hstarted : s.meetingStarted = true) (hinput : (trim s.userInput).isEmpty = false) :
    ∃ response new s',
      generateBotResponseWithGemini bot s.userInput (env bot) = .ok response ∧
      handleSendMessage s env = .ok s' ∧ s'.timers = s.timers ++ new ∧
      new.countP (fun p => decide (p.bot = bot)) = (if response.truthy then 1 else 0) ∧
      (∀ p ∈ new, p.bot = bot → p.response = response) ∧
      (filteredOut bot s.userInput (env bot).filterDraw = false →
        0 ≤ (env bot).fallbackDraw → (env bot).fallbackDraw < 1 →
        ((env bot).outcome = .rejected ∨ ∃ status body, (env bot).outcome = .response status body ∧
          (statusOk status = false ∨ body = none)) →
        response.truthy = true) ∧
      (filteredOut bot s.userInput (env bot).filterDraw = false →
        ∀ status message, (env bot).outcome = .response status (some (.object message)) →
          statusOk status = true → response = message) := by
  obtain ⟨response, hresp, htask⟩ := task_spec s.userInput env bot
  have hkey : ∀ (b : Bot) (a : PendingResponse K),
      (handleSendMessage.task s.userInput env b).toOption.join = some a → a.bot = b := by
    intro b a ha
    obtain ⟨v, -, hv⟩ := task_spec s.userInput env b
    rw [hv] at ha
    by_cases ht : v.truthy = true
    · simp only [Except.toOption, ht, if_true, Option.join, Option.bind] at ha
      rw [← Option.some.inj ha]
    · simp [Except.toOption, ht] at ha
  refine ⟨response,
    AI_BOTS.filterMap (fun b => (handleSendMessage.task s.userInput env b).toOption.join),
    { s with
      timers := s.timers ++
        AI_BOTS.filterMap (fun b => (handleSendMessage.task s.userInput env b).toOption.join)
      userInput := ""
      isLoading := false }, hresp, ?_, rfl, ?_, ?_, ?_, ?_⟩
  · unfold handleSendMessage
    rw [responses_eq_map]
    simp [hstarted, hinput, List.filterMap_map]
  · rw [countP_filterMap_key
      (fun b => (handleSendMessage.task s.userInput env b).toOption.join)
      (fun a : PendingResponse K => a.bot) hkey bot AI_BOTS AI_BOTS_nodup, htask]
    by_cases ht : response.truthy = true <;> simp [Except.toOption, ht, hbot]
  · intro p hp hpb
    obtain ⟨b, -, hb⟩ := List.mem_filterMap.1 hp
    have hbb : b = bot := by rw [← hkey b p hb, hpb]
    subst hbb
    rw [htask] at hb
    by_cases ht : response.truthy = true
    · simp only [Except.toOption, ht, if_true, Option.join, Option.bind] at hb
      rw [← Option.some.inj hb]
    · simp [Except.toOption, ht] at hb
  · intro hsel h0 h1 hfail
    obtain ⟨table, str, htable, hstr, hfb⟩ :=
      generateFallbackResponse_mem bot hbot s.userInput (env bot).fallbackDraw h0 h1
    have htry : ∃ e, generateBotResponseWithGemini.tryBlock (env bot).outcome = .error e := by
      rcases hfail with h | ⟨status, body, h, hok | hbody⟩
      · exact ⟨.typeError, by rw [h]; rfl⟩
      · exact ⟨.error "Failed to get AI response", by
          rw [h]; simp [generateBotResponseWithGemini.tryBlock, hok]⟩
      · subst hbody
        by_cases hok : statusOk status = true
        · exact ⟨.syntaxError, by
            rw [h]; simp [generateBotResponseWithGemini.tryBlock, hok]⟩
        · exact ⟨.error "Failed to get AI response", by
            rw [h]; simp [generateBotResponseWithGemini.tryBlock, hok]⟩
    obtain ⟨e, he⟩ := htry
    have hval : generateBotResponseWithGemini bot s.userInput (env bot) = .ok (.string str) := by
      simp [generateBotResponseWithGemini, generateBotResponseWithGemini.tryCatch, hsel, he, hfb]
    rw [hval] at hresp
    rw [← Except.ok.inj hresp]
    exact fallback_strings_nonempty bot hbot table htable str hstr
  · intro hsel status message hout hok
    have hval : generateBotResponseWithGemini bot s.userInput (env bot) = .ok message := by
      simp [generateBotResponseWithGemini, generateBotResponseWithGemini.tryCatch, hsel, hout,
        generateBotResponseWithGemini.tryBlock, hok, JsonData.message]
    rw [hval] at hresp
    exact (Except.ok.inj hresp).symm

/-- C3, amended, at a concrete input: the message "budget" in a started meeting,
the finance persona, every call rejected and every draw 0. -/
theorem one_timer_per_truthy_response_witness :
    ∃ response new s',
      generateBotResponseWithGemini (AI_BOTS.get ⟨4, by decide⟩) "budget"
        (PersonaEnv.mk (0 : ℚ) .rejected 0 0) = .ok response ∧
      handleSendMessage (run [.clickStart 0, .typeInput "budget"])
        (fun _ => PersonaEnv.mk (0 : ℚ) .rejected 0 0) = .ok s' ∧
      s'.timers = (run [.clickStart 0, .typeInput "budget"] : MeetingState ℚ).timers ++ new ∧
      new.countP (fun p => decide (p.bot = AI_BOTS.get ⟨4, by decide⟩)) = 1 := by
  obtain ⟨response, new, s', h1, h2, h3, h4, -, h6, -⟩ :=
    one_timer_per_truthy_response (run [.clickStart 0, .typeInput "budget"])
      (fun _ => PersonaEnv.mk (0 : ℚ) .rejected 0 0) (AI_BOTS.get ⟨4, by decide⟩)
      (by decide) (by decide) (by decide)
  have ht : response.truthy = true :=
    h6 (by decide!) (le_refl _) (by norm_num) (Or.inl rfl)
  rw [ht] at h4
  exact ⟨response, new, s', h1, h2, h3, h4⟩

/-- C5, as stated, fails: for the finance persona, selected by the keyword
"budget", a response with status 200 whose body is the object `{}` (no
`message` property) makes `generateBotResponseWithGemini` return `undefined`,
not a string of the fallback table, while a rejected call with the same draws
returns the first string of the finance bucket. -/
theorem missing_message_field_returns_undefined :
    filteredOut (AI_BOTS.get ⟨4, by decide⟩) "budget" (0 : ℚ) = false ∧
    generateBotResponseWithGemini (AI_BOTS.get ⟨4, by decide⟩) "budget"
      (PersonaEnv.mk (0 : ℚ) (.response 200 (some (.object .undefined))) 0 0) = .ok .undefined ∧
    generateBotResponseWithGemini (AI_BOTS.get ⟨4, by decide⟩) "budget"
      (PersonaEnv.mk (0 : ℚ) .rejected 0 0) =
        .ok (.string
          "What's the projected ROI and how does this fit within our budget constraints?") := by
  have hsel : filteredOut (AI_BOTS.get ⟨4, by decide⟩) "budget" (0 : ℚ) = false := by decide!
  have hfb : generateFallbackResponse (AI_BOTS.get ⟨4, by decide⟩) "budget" (0 : ℚ) =
      .string "What's the projected ROI and how does this fit within our budget constraints?" := by
    decide!
  refine ⟨hsel, ?_, ?_⟩
  · unfold generateBotResponseWithGemini
    rw [hsel]
    rfl
  · unfold generateBotResponseWithGemini generateBotResponseWithGemini.tryCatch
    rw [hsel]
    show Except.ok (generateFallbackResponse (AI_BOTS.get ⟨4, by decide⟩) "budget" (0 : ℚ)) = _
    rw [hfb]

/-- C5, amended: for a persona of `AI_BOTS` that passed the filter, when the
call returns a success status with a body that cannot be parsed, or that
parses to `null`, `generateBotResponseWithGemini` takes the fallback path: it
returns a string of that persona's bucket of the fallback table, the same
value as for a rejected call with the same draws. -/
theorem fallback_on_unparseable_body {K : Type} [LinearOrderedField K] [FloorRing K]
    (bot : Bot) (hbot : bot ∈ AI_BOTS) (userMessage : String) (env : PersonaEnv K)
    (hsel : filteredOut bot userMessage env.filterDraw = false)
    (h0 : 0 ≤ env.fallbackDraw) (h1 : env.fallbackDraw < 1)
    (status : Nat) (hok : statusOk status = true)
    (hbody : env.outcome = .response status none ∨ env.outcome = .response status (some .null)) :
    ∃ table s, generateFallbackResponse.responses.lookup bot.id = some table ∧ s ∈ table ∧
      generateBotResponseWithGemini bot userMessage env = .ok (.string s) ∧
      generateBotResponseWithGemini bot userMessage env =
        generateBotResponseWithGemini bot userMessage { env with outcome := .rejected } := by
  obtain ⟨table, s, htable, hs, hfb⟩ :=
    generateFallbackResponse_mem bot hbot userMessage env.fallbackDraw h0 h1
  have htry : ∃ e, generateBotResponseWithGemini.tryBlock env.outcome = .error e := by
    rcases hbody with h | h
    · exact ⟨.syntaxError, by rw [h]; simp [generateBotResponseWithGemini.tryBlock, hok]⟩
    · exact ⟨.typeError, by
        rw [h]; simp [generateBotResponseWithGemini.tryBlock, hok, JsonData.message]⟩
  obtain ⟨e, he⟩ := htry
  have hval : generateBotResponseWithGemini bot userMessage env = .ok (.string s) := by
    simp [generateBotResponseWithGemini, generateBotResponseWithGemini.tryCatch, hsel, he, hfb]
  refine ⟨table, s, htable, hs, hval, ?_⟩
  rw [hval]
  simp [generateBotResponseWithGemini, generateBotResponseWithGemini.tryCatch, hsel,
    generateBotResponseWithGemini.tryBlock, hfb]

/-- C5, amended, at a concrete input: the finance persona, the message
"budget", status 200 with an unparseable body, and a fallback draw of 0.9. -/
theorem fallback_on_unparseable_body_witness :
    ∃ table s, generateFallbackResponse.responses.lookup (AI_BOTS.get ⟨4, by decide⟩).id =
        some table ∧ s ∈ table ∧
      generateBotResponseWithGemini (AI_BOTS.get ⟨4, by decide⟩) "budget"
        (PersonaEnv.mk (0 : ℚ) (.response 200 none) (9 / 10) 0) = .ok (.string s) ∧
      generateBotResponseWithGemini (AI_BOTS.get ⟨4, by decide⟩) "budget"
        (PersonaEnv.mk (0 : ℚ) (.response 200 none) (9 / 10) 0) =
        generateBotResponseWithGemini (AI_BOTS.get ⟨4, by decide⟩) "budget"
          (PersonaEnv.mk (0 : ℚ) .rejected (9 / 10) 0) :=
  fallback_on_unparseable_body (AI_BOTS.get ⟨4, by decide⟩) (by decide) "budget"
    (PersonaEnv.mk (0 : ℚ) (.response 200 none) (9 / 10) 0) (by decide!) (by norm_num)
    (by norm_num) 200 (by decide) (Or.inl rfl)

end Entries

/-! ## Transcript: claims C6 and C9 -/

section Transcript

/-- C6: the transcript is append-only.  In every reachable state, every step
(start of the meeting, typing, submission, a timer that fires, a tick of the
countdown, a click on a persona) leaves the transcript a prefix of the
transcript after the step, and so does every sequence of steps: no entry is
removed, replaced or reordered. -/
theorem transcript_append_only {K : Type} [LinearOrderedField K] [FloorRing K]
    (s : MeetingState K) (hs : Reachable s) :
    (∀ e : Event K, s.chatMessages <+: (step s e).chatMessages) ∧
    (∀ events : List (Event K), s.chatMessages <+: (events.foldl step s).chatMessages) :=
  ⟨fun e => prefix_step s e (idle_of_reachable s hs),
    fun events => prefix_foldl events s (idle_of_reachable s hs)⟩

/-- C6, at a concrete input: after the start of the meeting and the submission
of "budget" with every call rejected, the first timer fires at clock value 5
and the transcript grows from the welcome entry to two entries. -/
theorem transcript_append_only_witness :
    (run [.clickStart 0, .typeInput "budget",
        .send fun _ => PersonaEnv.mk (0 : ℚ) .rejected 0 0]).chatMessages <+:
      (step (run [.clickStart 0, .typeInput "budget",
        .send fun _ => PersonaEnv.mk (0 : ℚ) .rejected 0 0]) (.timeout 0 5)).chatMessages ∧
    (run [.clickStart 0, .typeInput "budget",
        .send fun _ => PersonaEnv.mk (0 : ℚ) .rejected 0 0]).chatMessages.length = 1 ∧
    (step (run [.clickStart 0, .typeInput "budget",
        .send fun _ => PersonaEnv.mk (0 : ℚ) .rejected 0 0]) (.timeout 0 5)).chatMessages.length = 2 :=
  ⟨(transcript_append_only
      (run [.clickStart 0, .typeInput "budget",
        .send fun _ => PersonaEnv.mk (0 : ℚ) .rejected 0 0]) ⟨_, rfl⟩).1 (.timeout 0 5),
    by decide!, by decide!⟩

/-- C9, as stated, fails: in a started meeting the message "hello" is submitted
and every persona draws 0.5, so none is selected; `handleSendMessage` returns a
state whose transcript is still the welcome entry alone, with no entry
authored by "user" and no timer registered. -/
theorem user_entry_not_appended :
    (trim "hello").isEmpty = false ∧
    (run [.clickStart 0, .typeInput "hello"] : MeetingState ℚ).meetingStarted = true ∧
    ((handleSendMessage (run [.clickStart 0, .typeInput "hello"])
        (fun _ => PersonaEnv.mk (1 / 2 : ℚ) .rejected 0 0)).toOption.map
      fun s' => (s'.chatMessages.map fun m => m.botId, s'.timers.length)) =
        some (["system"], 0) := by
  decide!

/-- C9, amended: `handleSendMessage` always returns normally and leaves the
transcript as it was: it appends no entry itself, in particular none authored
by the user; persona entries come later, from the timers.  When the filter
rejects every persona it registers no timer either, so the transcript does
not grow for that message. -/
theorem handleSendMessage_keeps_transcript {K : Type} [LinearOrderedField K] [FloorRing K]
    (s : MeetingState K) (env : Bot → PersonaEnv K) :
    ∃ s', handleSendMessage s env = .ok s' ∧ s'.chatMessages = s.chatMessages ∧
      ((∀ bot ∈ AI_BOTS, filteredOut bot s.userInput (env bot).filterDraw = true) →
        s'.timers = s.timers) := by
  obtain ⟨s', hs'⟩ := handleSendMessage_ok s env
  refine ⟨s', hs', (handleSendMessage_frame s s' env hs').1, ?_⟩
  intro hnone
  unfold handleSendMessage at hs'
  split at hs'
  · cases hs'
    rfl
  · rw [responses_eq_map] at hs'
    cases hs'
    have hall : ∀ b ∈ AI_BOTS, (handleSendMessage.task s.userInput env b).toOption.join = none := by
      intro b hb
      simp [handleSendMessage.task, generateBotResponseWithGemini, hnone b hb, JsValue.truthy,
        Except.toOption]
    have hnil : (AI_BOTS.map fun b =>
        (handleSendMessage.task s.userInput env b).toOption.join).filterMap id = [] := by
      rw [List.filterMap_map, List.filterMap_eq_nil_iff]
      intro b hb
      simpa using hall b hb
    show s.timers ++ _ = s.timers
    rw [hnil, List.append_nil]

end Transcript

/-! ## Scenario A, the other personas: claim C11 -/

section ScenarioA

/-- C11, as stated, fails: for the message of scenario A the strategist persona
has a keyword match, because its keyword "market" is a substring of
"marketing"; it is selected even with a draw of 0.99, above the threshold. -/
theorem scenario_A_strategist_matches :
    (AI_BOTS.get ⟨0, by decide⟩).id = "strategist" ∧
    "market" ∈ (AI_BOTS.get ⟨0, by decide⟩).keywords ∧
    includes (toLowerCase "What's our marketing budget for this campaign?")
      (toLowerCase "market") = true ∧
    hasKeyword (AI_BOTS.get ⟨0, by decide⟩)
      "What's our marketing budget for this campaign?" = true ∧
    filteredOut (AI_BOTS.get ⟨0, by decide⟩)
      "What's our marketing budget for this campaign?" (99 / 100 : ℚ) = false := by
  have h : hasKeyword (AI_BOTS.get ⟨0, by decide⟩)
      "What's our marketing budget for this campaign?" = true := by decide
  refine ⟨by decide, by decide, by decide, h, ?_⟩
  unfold filteredOut
  rw [h]
  rfl

/-- C11, amended: for the message of scenario A, among the personas of `AI_BOTS`
other than finance and marketing, the strategist has a keyword match (its
keyword "market" occurs in "marketing") and is selected for every draw; the
remaining ones (creative, tech, hr) have no keyword match and are selected
exactly when their draw is at most 0.3. -/
theorem scenario_A_other_personas {K : Type} [LinearOrderedField K]
    (bot : Bot) (hbot : bot ∈ AI_BOTS) (hid : bot.id ≠ "finance" ∧ bot.id ≠ "marketing") (r : K) :
    (bot.id = "strategist" →
      hasKeyword bot "What's our marketing budget for this campaign?" = true ∧
      filteredOut bot "What's our marketing budget for this campaign?" r = false) ∧
    (bot.id ≠ "strategist" →
      (bot.id = "creative" ∨ bot.id = "tech" ∨ bot.id = "hr") ∧
      hasKeyword bot "What's our marketing budget for this campaign?" = false ∧
      (filteredOut bot "What's our marketing budget for this campaign?" r = false ↔
        r ≤ 3 / 10)) := by
  have key : ∀ b ∈ AI_BOTS, (b.id ≠ "finance" ∧ b.id ≠ "marketing") →
      (b.id = "strategist" →
        hasKeyword b "What's our marketing budget for this campaign?" = true) ∧
      (b.id ≠ "strategist" →
        (b.id = "creative" ∨ b.id = "tech" ∨ b.id = "hr") ∧
        hasKeyword b "What's our marketing budget for this campaign?" = false) := by
    decide
  obtain ⟨h1, h2⟩ := key bot hbot hid
  refine ⟨fun h => ⟨h1 h, by simp [filteredOut, h1 h]⟩, fun h => ?_⟩
  obtain ⟨hids, hk⟩ := h2 h
  exact ⟨hids, hk, filteredOut_of_not_hasKeyword bot _ hk r⟩

/-- C11, amended, at a concrete input: the creative persona is filtered out
with a draw of 0.5 and selected with a draw of 0.1. -/
theorem scenario_A_other_personas_witness :
    (AI_BOTS.get ⟨1, by decide⟩).id = "creative" ∧
    filteredOut (AI_BOTS.get ⟨1, by decide⟩)
      "What's our marketing budget for this campaign?" (1 / 2 : ℚ) = true ∧
    filteredOut (AI_BOTS.get ⟨1, by decide⟩)
      "What's our marketing budget for this campaign?" (1 / 10 : ℚ) = false := by
  have h5 := ((scenario_A_other_personas (AI_BOTS.get ⟨1, by decide⟩) (by decide)
    ⟨by decide, by decide⟩ (1 / 2 : ℚ)).2 (by decide)).2.2
  have h1 := ((scenario_A_other_personas (AI_BOTS.get ⟨1, by decide⟩) (by decide)
    ⟨by decide, by decide⟩ (1 / 10 : ℚ)).2 (by decide)).2.2
  refine ⟨by decide, ?_, h1.2 (by norm_num)⟩
  cases hf : filteredOut (AI_BOTS.get ⟨1, by decide⟩)
    "What's our marketing budget for this campaign?" (1 / 2 : ℚ) with
  | true => rfl
  | false => exact absurd (h5.1 hf) (by norm_num)

end ScenarioA

/-! ## Session timer: claims C12 to C16 -/

section SessionTimer

/-- The function `handleSendMessage` changes nothing but the timers, the input
and the loading flag, whatever the remaining seconds are. -/
theorem handleSendMessage_eq {K : Type} [LinearOrderedField K] [FloorRing K]
    (s : MeetingState K) (env : Bot → PersonaEnv K) :
    handleSendMessage s env =
      .ok (if ((trim s.userInput).isEmpty || !s.meetingStarted) = true then s
        else { s with
          timers := s.timers ++
            AI_BOTS.filterMap fun b => (handleSendMessage.task s.userInput env b).toOption.join
          userInput := ""
          isLoading := false }) := by
  unfold handleSendMessage
  by_cases h : ((trim s.userInput).isEmpty || !s.meetingStarted) = true
  · rw [if_pos h, if_pos h]
  · rw [if_neg h, if_neg h, responses_eq_map]
    simp only [List.filterMap_map]
    rfl

/-- One step keeps the remaining seconds between 0 and 900. -/
theorem timeLeft_step {K : Type} [LinearOrderedField K] [FloorRing K]
    (s : MeetingState K) (e : Event K) (hs : 0 ≤ s.timeLeft ∧ s.timeLeft ≤ 900) :
    0 ≤ (step s e).timeLeft ∧ (step s e).timeLeft ≤ 900 := by
  cases e with
  | clickStart now =>
    by_cases h : s.meetingStarted = true
    · simpa [step, h] using hs
    · simpa [step, h, startMeeting] using hs
  | typeInput text =>
    by_cases h : (s.meetingStarted && !s.isLoading) = true
    · simp only [step, h, if_true]
      exact hs
    · simp only [step, h, if_false]
      exact hs
  | send env =>
    by_cases h : (s.meetingStarted && !s.isLoading) = true
    · simp only [step, h, if_true, handleSendMessage_eq]
      split
      · exact hs
      · exact hs
    · simp only [step, h, if_false]
      exact hs
  | timeout i now =>
    show 0 ≤ (fireTimer s i now).timeLeft ∧ (fireTimer s i now).timeLeft ≤ 900
    unfold fireTimer
    cases s.timers.get? i with
    | none => exact hs
    | some p => exact hs
  | tick =>
    show 0 ≤ (tick s).timeLeft ∧ (tick s).timeLeft ≤ 900
    unfold tick
    split
    · exact hs
    · rename_i h
      simp only [Bool.or_eq_true, Bool.not_eq_true', decide_eq_true_eq, not_or, not_le] at h
      show 0 ≤ s.timeLeft - 1 ∧ s.timeLeft - 1 ≤ 900
      omega
  | clickBot id => exact hs

/-- The remaining seconds after `n` ticks of a started meeting. -/
theorem timeLeft_ticks {K : Type} [LinearOrderedField K] [FloorRing K]
    (n : Nat) (s : MeetingState K) (hstarted : s.meetingStarted = true) (h0 : 0 ≤ s.timeLeft) :
    ((List.replicate n Event.tick).foldl step s).timeLeft = max 0 (s.timeLeft - n) ∧
    ((List.replicate n Event.tick).foldl step s).meetingStarted = true := by
  induction n generalizing s with
  | zero =>
    simp only [List.replicate_zero, List.foldl_nil, Nat.cast_zero, sub_zero]
    exact ⟨(max_eq_right h0).symm, hstarted⟩
  | succ n ih =>
    rw [List.replicate_succ, List.foldl_cons]
    have hstep : step s Event.tick = tick s := rfl
    rw [hstep]
    by_cases hz : s.timeLeft ≤ 0
    · have htick : tick s = s := by simp [tick, hz]
      rw [htick]
      obtain ⟨h1, h2⟩ := ih s hstarted h0
      refine ⟨?_, h2⟩
      rw [h1]
      have : s.timeLeft = 0 := le_antisymm hz h0
      rw [this]
      simp only [max_def]
      push_cast
      split_ifs <;> omega
    · have htick : tick s = { s with timeLeft := s.timeLeft - 1 } := by
        simp [tick, hz, hstarted]
      rw [htick]
      obtain ⟨h1, h2⟩ := ih { s with timeLeft := s.timeLeft - 1 } hstarted (by
        show 0 ≤ s.timeLeft - 1
        omega)
      refine ⟨?_, h2⟩
      rw [h1]
      show max 0 (s.timeLeft - 1 - (n : ℤ)) = max 0 (s.timeLeft - ((n + 1 : ℕ) : ℤ))
      push_cast
      congr 1
      ring

/-- C12: in a started meeting one tick of the countdown takes the remaining
seconds from `n` to `n - 1` when `n > 0` and leaves them at 0 when `n = 0`; the
tick changes no other part of the state (transcript, started flag, input,
selected persona, loading flag, timers). -/
theorem tick_decrements {K : Type} [LinearOrderedField K] [FloorRing K]
    (s : MeetingState K) (hstarted : s.meetingStarted = true) :
    (0 < s.timeLeft → (step s .tick).timeLeft = s.timeLeft - 1) ∧
    (s.timeLeft = 0 → (step s .tick).timeLeft = 0) ∧
    (step s .tick).chatMessages = s.chatMessages ∧
    (step s .tick).meetingStarted = s.meetingStarted ∧
    (step s .tick).userInput = s.userInput ∧
    (step s .tick).selectedBot = s.selectedBot ∧
    (step s .tick).isLoading = s.isLoading ∧
    (step s .tick).timers = s.timers := by
  have hstep : step s Event.tick = tick s := rfl
  rw [hstep]
  by_cases hz : s.timeLeft ≤ 0
  · have htick : tick s = s := by simp [tick, hz]
    rw [htick]
    exact ⟨fun h => absurd h (not_lt.2 hz), fun h => h, rfl, rfl, rfl, rfl, rfl, rfl⟩
  · have htick : tick s = { s with timeLeft := s.timeLeft - 1 } := by
      simp [tick, hz, hstarted]
    rw [htick]
    exact ⟨fun _ => rfl, fun h => absurd (le_of_eq h) hz, rfl, rfl, rfl, rfl, rfl, rfl⟩

/-- C12, at a concrete input: the first tick after the start takes 900 to 899. -/
theorem tick_decrements_witness :
    (step (run [.clickStart 0] : MeetingState ℚ) .tick).timeLeft = 900 - 1 :=
  by
    have h := (tick_decrements (run [.clickStart 0] : MeetingState ℚ) (by decide)).1 (by decide)
    exact h

/-- C13: in every state reachable from the initial state (900 seconds, meeting
not started) by any sequence of events (start, typing, submission, timer
release, tick, click on a persona), the remaining seconds are an integer
between 0 and 900. -/
theorem timeLeft_bounds {K : Type} [LinearOrderedField K] [FloorRing K]
    (s : MeetingState K) (hs : Reachable s) : 0 ≤ s.timeLeft ∧ s.timeLeft ≤ 900 := by
  obtain ⟨events, rfl⟩ := hs
  unfold run
  induction events using List.reverseRecOn with
  | nil =>
    show (0 : ℤ) ≤ 15 * 60 ∧ (15 * 60 : ℤ) ≤ 900
    omega
  | append_singleton es e ih =>
    rw [List.foldl_append]
    exact timeLeft_step _ e ih

/-- C13, at a concrete input: the state after the start, a submission and
three ticks. -/
theorem timeLeft_bounds_witness :
    0 ≤ (run [.clickStart 0, .typeInput "budget",
        .send fun _ => PersonaEnv.mk (0 : ℚ) .rejected 0 0, .tick, .tick, .tick]).timeLeft ∧
    (run [.clickStart 0, .typeInput "budget",
        .send fun _ => PersonaEnv.mk (0 : ℚ) .rejected 0 0, .tick, .tick, .tick]).timeLeft ≤ 900 :=
  timeLeft_bounds _ ⟨_, rfl⟩

/-- C14: from a started meeting with 900 remaining seconds, `n` ticks leave
`900 - n` seconds for every `n` up to 900, so exactly 900 ticks leave 0, and
`900 + k` ticks leave 0 for every `k`. -/
theorem countdown_reaches_zero {K : Type} [LinearOrderedField K] [FloorRing K]
    (s : MeetingState K) (hstarted : s.meetingStarted = true) (h900 : s.timeLeft = 900) :
    (∀ n : Nat, n ≤ 900 →
      ((List.replicate n Event.tick).foldl step s).timeLeft = 900 - (n : ℤ)) ∧
    ((List.replicate 900 Event.tick).foldl step s).timeLeft = 0 ∧
    (∀ k : Nat, ((List.replicate (900 + k) Event.tick).foldl step s).timeLeft = 0) := by
  have h0 : 0 ≤ s.timeLeft := by rw [h900]; decide
  refine ⟨fun n hn => ?_, ?_, fun k => ?_⟩
  · rw [(timeLeft_ticks n s hstarted h0).1, h900]
    apply max_eq_right
    omega
  · rw [(timeLeft_ticks 900 s hstarted h0).1, h900]
    decide
  · rw [(timeLeft_ticks (900 + k) s hstarted h0).1, h900]
    apply max_eq_left
    push_cast
    omega

/-- C14, at a concrete input: the meeting started at clock value 0, then 900
ticks and 7 more. -/
theorem countdown_reaches_zero_witness :
    ((List.replicate 900 Event.tick).foldl step
      (run [.clickStart 0] : MeetingState ℚ)).timeLeft = 0 ∧
    ((List.replicate (900 + 7) Event.tick).foldl step
      (run [.clickStart 0] : MeetingState ℚ)).timeLeft = 0 :=
  ⟨(countdown_reaches_zero (run [.clickStart 0] : MeetingState ℚ) (by decide) (by decide)).2.1,
    (countdown_reaches_zero (run [.clickStart 0] : MeetingState ℚ) (by decide) (by decide)).2.2 7⟩

/-- C15: `startMeeting` sets the started flag and makes the transcript the
single welcome entry (id "welcome", author "system", name "Meeting
Assistant"); it leaves the remaining seconds, the user input and every other
cell as they were.  From a state that is not started, the click on the start
button is `startMeeting`. -/
theorem startMeeting_seeds_welcome {K : Type} [LinearOrderedField K] [FloorRing K]
    (s : MeetingState K) (now : Nat) :
    (startMeeting s now).meetingStarted = true ∧
    (∃ m, (startMeeting s now).chatMessages = [m] ∧ m.id = "welcome" ∧ m.botId = "system" ∧
      m.botName = "Meeting Assistant" ∧ m.timestamp = now) ∧
    (startMeeting s now).timeLeft = s.timeLeft ∧
    (startMeeting s now).userInput = s.userInput ∧
    (startMeeting s now).selectedBot = s.selectedBot ∧
    (startMeeting s now).isLoading = s.isLoading ∧
    (startMeeting s now).timers = s.timers ∧
    (s.meetingStarted = false → step s (.clickStart now) = startMeeting s now) := by
  refine ⟨rfl, ⟨_, rfl, rfl, rfl, rfl, rfl⟩, rfl, rfl, rfl, rfl, rfl, ?_⟩
  intro h
  simp [step, h]

/-- C16: in a started meeting with 0 remaining seconds, any number of ticks
leaves the meeting started with 0 seconds; and `handleSendMessage` does not
read the remaining seconds: with any other value `t` in place of 0 it returns
the same state up to that value, so a non-blank message is accepted at 0
exactly as with time remaining: the input is cleared and the timers of the
truthy responses are registered. -/
theorem zero_does_not_end_session {K : Type} [LinearOrderedField K] [FloorRing K]
    (s : MeetingState K) (hstarted : s.meetingStarted = true) (hzero : s.timeLeft = 0) :
    (∀ n : Nat, ((List.replicate n Event.tick).foldl step s).meetingStarted = true ∧
      ((List.replicate n Event.tick).foldl step s).timeLeft = 0) ∧
    (∀ (env : Bot → PersonaEnv K) (t : ℤ), ∃ s',
      handleSendMessage s env = .ok s' ∧
      handleSendMessage { s with timeLeft := t } env = .ok { s' with timeLeft := t } ∧
      s'.meetingStarted = true ∧
      ((trim s.userInput).isEmpty = false →
        s'.userInput = "" ∧
        s'.timers = s.timers ++
          AI_BOTS.filterMap fun b =>
            (handleSendMessage.task s.userInput env b).toOption.join)) := by
  have h0 : 0 ≤ s.timeLeft := by rw [hzero]
  refine ⟨fun n => ?_, fun env t => ?_⟩
  · obtain ⟨h1, h2⟩ := timeLeft_ticks n s hstarted h0
    refine ⟨h2, ?_⟩
    rw [h1, hzero]
    apply max_eq_left
    omega
  · refine ⟨_, handleSendMessage_eq s env, ?_, ?_, ?_⟩
    · rw [handleSendMessage_eq]
      by_cases h : ((trim s.userInput).isEmpty || !s.meetingStarted) = true
      · simp only [h, if_true]
      · simp only [h, if_false]
        rfl
    · by_cases h : ((trim s.userInput).isEmpty || !s.meetingStarted) = true
      · simp only [h, if_true]
        exact hstarted
      · simp only [h, if_false]
        exact hstarted
    · intro hinput
      have h : ¬ ((trim s.userInput).isEmpty || !s.meetingStarted) = true := by
        simp [hinput, hstarted]
      rw [if_neg h]
      exact ⟨rfl, rfl⟩

/-- C16, at a concrete input: the meeting started, 900 ticks, then the message
"budget" with every call rejected: the message is accepted and six timers
are registered. -/
theorem zero_does_not_end_session_witness :
    ∃ s', handleSendMessage
        ((List.replicate 900 Event.tick).foldl step
          (run [.clickStart 0, .typeInput "budget"] : MeetingState ℚ))
        (fun _ => PersonaEnv.mk (0 : ℚ) .rejected 0 0) = .ok s' ∧
      s'.meetingStarted = true ∧ s'.userInput = "" ∧ s'.timers.length = 6 := by
  have hs := timeLeft_ticks 900 (run [.clickStart 0, .typeInput "budget"] : MeetingState ℚ)
    (by decide) (by decide)
  have hinput : ((List.replicate 900 Event.tick).foldl step
      (run [.clickStart 0, .typeInput "budget"] : MeetingState ℚ)).userInput = "budget" := by
    decide!
  have htimers : ((List.replicate 900 Event.tick).foldl step
      (run [.clickStart 0, .typeInput "budget"] : MeetingState ℚ)).timers = [] :=
    List.eq_nil_of_length_eq_zero (by decide!)
  obtain ⟨s', h1, -, h3, h4⟩ := (zero_does_not_end_session
    ((List.replicate 900 Event.tick).foldl step
      (run [.clickStart 0, .typeInput "budget"] : MeetingState ℚ))
    hs.2 (by rw [hs.1]; decide)).2 (fun _ => PersonaEnv.mk (0 : ℚ) .rejected 0 0) 0
  rw [hinput] at h4
  obtain ⟨h5, h6⟩ := h4 (by decide)
  refine ⟨s', h1, h3, h5, ?_⟩
  rw [h6, htimers]
  decide!

end SessionTimer

/-! ## Entry ids: claim C17 -/

section EntryIds

/-- C17, evaluated where it fails: the message "budget" is submitted twice in a
started meeting, each time selecting the finance persona alone (filter draws
of 0.5, calls rejected); the two timers then fire at the same clock value 5.
The transcript holds two entries with the same id "5finance". -/
theorem duplicate_entry_ids :
    ((run [.clickStart 0,
        .typeInput "budget", .send fun _ => PersonaEnv.mk (1 / 2 : ℚ) .rejected 0 0,
        .typeInput "budget", .send fun _ => PersonaEnv.mk (1 / 2 : ℚ) .rejected 0 0,
        .timeout 0 5, .timeout 0 5]).chatMessages.map fun m => m.id) =
      ["welcome", "5finance", "5finance"] ∧
    ¬ ((run [.clickStart 0,
        .typeInput "budget", .send fun _ => PersonaEnv.mk (1 / 2 : ℚ) .rejected 0 0,
        .typeInput "budget", .send fun _ => PersonaEnv.mk (1 / 2 : ℚ) .rejected 0 0,
        .timeout 0 5, .timeout 0 5]).chatMessages.map fun m => m.id).Nodup := by
  decide!

end EntryIds

/-! ## Fallback table: claim C19 -/

section FallbackTable

/-- With the exact product, a draw `r` of `[0,1)` picks on a non-empty table
the string at index `floor (r * length)`, a valid index. -/
theorem pick_eq {K : Type} [LinearOrderedField K] [FloorRing K]
    (table : List String) (r : K) (hne : table ≠ []) (h0 : 0 ≤ r) (h1 : r < 1) :
    ∃ i, ∃ hi : i < table.length, ⌊r * (table.length : K)⌋ = (i : ℤ) ∧
      generateFallbackResponse.pick table r = .string (table.get ⟨i, hi⟩) := by
  have hlen : (0 : K) < (table.length : K) := by
    exact_mod_cast List.length_pos.2 hne
  have hi0 : (0 : ℤ) ≤ ⌊r * (table.length : K)⌋ :=
    Int.floor_nonneg.2 (mul_nonneg h0 hlen.le)
  have hi1 : ⌊r * (table.length : K)⌋ < (table.length : ℤ) := by
    rw [Int.floor_lt]
    have : r * (table.length : K) < 1 * (table.length : K) := mul_lt_mul_of_pos_right h1 hlen
    simpa using this
  have hlt : ⌊r * (table.length : K)⌋.toNat < table.length := by omega
  refine ⟨_, hlt, (Int.toNat_of_nonneg hi0).symm, ?_⟩
  unfold generateFallbackResponse.pick
  simp only [not_lt.2 hi0, if_false, List.get?_eq_get hlt]

/-- The bucket of every persona of the registry has three strings, all different. -/
theorem responses_lookup_nodup (bot : Bot) (hbot : bot ∈ AI_BOTS) :
    ∃ table, generateFallbackResponse.responses.lookup bot.id = some table ∧
      table.length = 3 ∧ table.Nodup := by
  have key : ∀ b ∈ AI_BOTS,
      (generateFallbackResponse.responses.lookup b.id).map
        (fun t => (t.length, decide t.Nodup)) = some (3, true) := by decide
  have h := key bot hbot
  rw [Option.map_eq_some'] at h
  obtain ⟨table, htable, hprop⟩ := h
  simp only [Prod.mk.injEq, decide_eq_true_eq] at hprop
  exact ⟨table, htable, hprop.1, hprop.2⟩

/-- C19, amended: for every persona whose id has no bucket in the fallback
table and is not a property name that every object inherits from
`Object.prototype` (`constructor`, `toString` and the like), every message
and every draw of `[0,1)`, `generateFallbackResponse` returns the single
generic string. -/
theorem generic_fallback_of_plain_id {K : Type} [LinearOrderedField K] [FloorRing K]
    (bot : Bot) (userMessage : String) (r : K) (h0 : 0 ≤ r) (h1 : r < 1)
    (hnone : generateFallbackResponse.responses.lookup bot.id = none)
    (hplain : bot.id ∉ generateFallbackResponse.inherited) :
    generateFallbackResponse bot userMessage r =
      .string "That's an interesting perspective to explore further." := by
  obtain ⟨i, hi, -, hpick⟩ :=
    pick_eq generateFallbackResponse.generic r (by decide) h0 h1
  have hi0 : i = 0 := by
    have : i < 1 := hi
    omega
  subst hi0
  simp only [generateFallbackResponse, hnone, hplain, if_false, hpick]
  rfl

/-- C19, as stated, fails: a persona whose id is "constructor" has no bucket
in the fallback table, yet `generateFallbackResponse` returns `undefined` for
it, not the generic string: `responses["constructor"]` is the inherited
function `Object`, a truthy value, so the default of line 201 is not used, and
the function has no element at index 0. The application itself only calls
`generateFallbackResponse` with the six personas of `AI_BOTS`. -/
theorem inherited_id_returns_undefined :
    generateFallbackResponse.responses.lookup "constructor" = none ∧
    generateFallbackResponse
      { id := "constructor", name := "", expertise := "", personality := "", color := "",
        position := ("", ""), keywords := [] } "hello" (0 : ℚ) = .undefined ∧
    generateFallbackResponse
      { id := "constructor", name := "", expertise := "", personality := "", color := "",
        position := ("", ""), keywords := [] } "hello" (0 : ℚ) ≠
      .string "That's an interesting perspective to explore further." := by
  decide!

/-- C19, amended, at a concrete input: a persona whose id is "intern". -/
theorem generic_fallback_of_plain_id_witness :
    generateFallbackResponse
      { id := "intern", name := "", expertise := "", personality := "", color := "",
        position := ("", ""), keywords := [] } "hello" (1 / 2 : ℚ) =
      .string "That's an interesting perspective to explore further." :=
  generic_fallback_of_plain_id _ "hello" (1 / 2 : ℚ) (by norm_num) (by norm_num)
    (by decide) (by decide)

end FallbackTable

/-! ## Blank messages: claim C20 -/

section BlankMessages

/-- Lower-casing leaves white space as it is. -/
theorem toLower_of_isWhiteSpace (c : Char) (h : isWhiteSpace c = true) : c.toLower = c := by
  have hn : ¬ (c.toNat ≥ 65 ∧ c.toNat ≤ 90) := by
    simp only [isWhiteSpace, Bool.or_eq_true, Bool.and_eq_true, decide_eq_true_eq,
      beq_iff_eq] at h
    omega
  simp only [Char.toLower, hn, if_false]

/-- A message is blank for `trim` exactly when all its code points are white space. -/
theorem trim_isEmpty_iff (s : String) :
    (trim s).isEmpty = true ↔ ∀ c ∈ s.data, isWhiteSpace c = true := by
  rw [String.isEmpty_iff]
  unfold trim
  rw [String.ext_iff]
  show ((s.data.dropWhile isWhiteSpace).reverse.dropWhile isWhiteSpace).reverse = [] ↔ _
  rw [List.reverse_eq_nil_iff, List.dropWhile_eq_nil_iff]
  constructor
  · intro h
    have hall : ∀ c ∈ s.data.dropWhile isWhiteSpace, isWhiteSpace c = true :=
      fun c hc => h c (List.mem_reverse.2 hc)
    have hnil : s.data.dropWhile isWhiteSpace = [] := by
      cases hd : s.data.dropWhile isWhiteSpace with
      | nil => rfl
      | cons x xs =>
        have hx : isWhiteSpace x = true := hall x (by rw [hd]; exact List.mem_cons_self _ _)
        have hnot := List.head_dropWhile_not isWhiteSpace s.data (by rw [hd]; simp)
        simp only [hd, List.head_cons] at hnot
        rw [hx] at hnot
        exact absurd hnot (by simp)
    exact List.dropWhile_eq_nil_iff.1 hnil
  · intro h c hc
    have hnil : s.data.dropWhile isWhiteSpace = [] := List.dropWhile_eq_nil_iff.2 h
    rw [hnil] at hc
    simp at hc

/-- A blank message contains no keyword of any persona of the registry. -/
theorem hasKeyword_of_blank (userMessage : String) (hblank : (trim userMessage).isEmpty = true)
    (bot : Bot) (hbot : bot ∈ AI_BOTS) : hasKeyword bot userMessage = false := by
  have hws := (trim_isEmpty_iff userMessage).1 hblank
  have key : ∀ b ∈ AI_BOTS, ∀ k ∈ b.keywords,
      (toLowerCase k).data.any (fun c => !isWhiteSpace c) = true := by decide
  cases hk : hasKeyword bot userMessage with
  | false => rfl
  | true =>
    obtain ⟨k, hkmem, hinfix⟩ := (hasKeyword_iff bot userMessage).1 hk
    obtain ⟨c, hc, hcws⟩ := List.any_eq_true.1 (key bot hbot k hkmem)
    have hcmsg : c ∈ (toLowerCase userMessage).data := hinfix.subset hc
    obtain ⟨d, hd, hdc⟩ := List.mem_map.1 hcmsg
    have hdws := hws d hd
    rw [toLower_of_isWhiteSpace d hdws] at hdc
    rw [← hdc, hdws] at hcws
    exact absurd hcws (by simp)

/-- C20, as stated, fails: in a started meeting the input is three spaces and
every persona draws 0, which passes the threshold; `handleSendMessage`
returns at its guard of line 208: no timer is registered and the input is
left as it is. -/
theorem blank_message_schedules_nothing :
    (run [.clickStart 0, .typeInput "   "] : MeetingState ℚ).meetingStarted = true ∧
    (∀ bot ∈ AI_BOTS, filteredOut bot "   " (0 : ℚ) = false) ∧
    ((handleSendMessage (run [.clickStart 0, .typeInput "   "])
        (fun _ => PersonaEnv.mk (0 : ℚ) .rejected 0 0)).toOption.map
      fun s' => (s'.timers.length, s'.userInput)) = some (0, "   ") := by
  decide!

/-- C20, amended: an empty or whitespace-only message is dropped by the guard of
`handleSendMessage`: the function returns the state as it was, evaluates no
persona and registers no timer, and the submission is a step that changes
nothing.  The relevance filter itself, applied to such a message, finds no
keyword match for any persona of `AI_BOTS` and would select each persona
exactly when its draw is at most 0.3. -/
theorem blank_message_is_dropped {K : Type} [LinearOrderedField K] [FloorRing K]
    (s : MeetingState K) (env : Bot → PersonaEnv K)
    (hblank : (trim s.userInput).isEmpty = true) :
    handleSendMessage s env = .ok s ∧ step s (.send env) = s ∧
    (∀ bot ∈ AI_BOTS, hasKeyword bot s.userInput = false ∧
      ∀ r : K, (filteredOut bot s.userInput r = false ↔ r ≤ 3 / 10)) := by
  have h : handleSendMessage s env = .ok s := by
    simp [handleSendMessage, hblank]
  refine ⟨h, ?_, fun bot hbot => ?_⟩
  · show (if (s.meetingStarted && !s.isLoading) = true then
        match handleSendMessage s env with
        | .ok s' => s'
        | .error _ => { s with isLoading := true }
      else s) = s
    rw [h]
    split <;> rfl
  · have hk := hasKeyword_of_blank s.userInput hblank bot hbot
    exact ⟨hk, filteredOut_of_not_hasKeyword bot s.userInput hk⟩

/-- C20, amended, at a concrete input: a started meeting whose input is a tab
and two spaces. -/
theorem blank_message_is_dropped_witness :
    handleSendMessage (run [.clickStart 0, .typeInput "\t  "] : MeetingState ℚ)
        (fun _ => PersonaEnv.mk (0 : ℚ) .rejected 0 0) =
      .ok (run [.clickStart 0, .typeInput "\t  "]) ∧
    hasKeyword (AI_BOTS.get ⟨5, by decide⟩)
      (run [.clickStart 0, .typeInput "\t  "] : MeetingState ℚ).userInput = false :=
  ⟨(blank_message_is_dropped (run [.clickStart 0, .typeInput "\t  "] : MeetingState ℚ)
      (fun _ => PersonaEnv.mk (0 : ℚ) .rejected 0 0) (by decide)).1,
    ((blank_message_is_dropped (run [.clickStart 0, .typeInput "\t  "] : MeetingState ℚ)
      (fun _ => PersonaEnv.mk (0 : ℚ) .rejected 0 0) (by decide)).2.2
        (AI_BOTS.get ⟨5, by decide⟩) (by decide)).1⟩

end BlankMessages

/-! ## No persona is bound to respond, keywords, verbatim text: claims C21 to C23 -/

section Selection

/-- When the filter rejects every persona, no task yields a pending response. -/
theorem no_pending_of_all_filteredOut {K : Type} [LinearOrderedField K] [FloorRing K]
    (userInput : String) (env : Bot → PersonaEnv K)
    (hout : ∀ bot ∈ AI_BOTS, filteredOut bot userInput (env bot).filterDraw = true) :
    (AI_BOTS.filterMap fun b => (handleSendMessage.task userInput env b).toOption.join) = [] := by
  rw [List.filterMap_eq_nil_iff]
  intro b hb
  simp [handleSendMessage.task, generateBotResponseWithGemini, hout b hb, JsValue.truthy,
    Except.toOption]

/-- C21: the message "hello" is not blank and contains no keyword of any
persona of `AI_BOTS`.  Submitted in a started meeting with every persona's
draw above 0.3, it selects no persona: `handleSendMessage` accepts the
message (the input is cleared), returns normally and registers no timer,
leaving the transcript as it was.  With every draw
below 0.3, each of the six personas passes the filter and its response is
requested. -/
theorem no_persona_bound_to_respond {K : Type} [LinearOrderedField K] [FloorRing K]
    (s : MeetingState K) (hstarted : s.meetingStarted = true) (hinput : s.userInput = "hello") :
    (trim "hello").isEmpty = false ∧ AI_BOTS.length = 6 ∧
    (∀ bot ∈ AI_BOTS, hasKeyword bot "hello" = false) ∧
    (∀ env : Bot → PersonaEnv K, (∀ bot ∈ AI_BOTS, 3 / 10 < (env bot).filterDraw) →
      (∀ bot ∈ AI_BOTS, filteredOut bot "hello" (env bot).filterDraw = true) ∧
      ∃ s', handleSendMessage s env = .ok s' ∧ s'.timers = s.timers ∧
        s'.chatMessages = s.chatMessages ∧ s'.userInput = "") ∧
    (∀ env : Bot → PersonaEnv K, (∀ bot ∈ AI_BOTS, (env bot).filterDraw < 3 / 10) →
      ∀ bot ∈ AI_BOTS, filteredOut bot "hello" (env bot).filterDraw = false ∧
        generateBotResponseWithGemini bot "hello" (env bot) =
          generateBotResponseWithGemini.tryCatch bot "hello" (env bot)) := by
  have hk : ∀ bot ∈ AI_BOTS, hasKeyword bot "hello" = false := by decide
  refine ⟨by decide, by decide, hk, fun env henv => ?_, fun env henv bot hbot => ?_⟩
  · have hout : ∀ bot ∈ AI_BOTS, filteredOut bot "hello" (env bot).filterDraw = true := by
      intro bot hbot
      cases hf : filteredOut bot "hello" (env bot).filterDraw with
      | true => rfl
      | false =>
        have := (filteredOut_of_not_hasKeyword bot "hello" (hk bot hbot) _).1 hf
        exact absurd (henv bot hbot) (not_lt.2 this)
    refine ⟨hout, ?_⟩
    have hguard : ¬ ((trim s.userInput).isEmpty || !s.meetingStarted) = true := by
      rw [hinput, hstarted]
      decide
    refine ⟨_, handleSendMessage_eq s env, ?_, ?_, ?_⟩
    · rw [if_neg hguard]
      show s.timers ++ _ = s.timers
      rw [hinput, no_pending_of_all_filteredOut "hello" env hout, List.append_nil]
    · rw [if_neg hguard]
    · rw [if_neg hguard]
  · have hf : filteredOut bot "hello" (env bot).filterDraw = false :=
      (filteredOut_of_not_hasKeyword bot "hello" (hk bot hbot) _).2 (le_of_lt (henv bot hbot))
    exact ⟨hf, by simp [generateBotResponseWithGemini, hf]⟩

/-- C21, at a concrete input: the meeting started at clock value 0 and the
input "hello"; every persona draws 0.9. -/
theorem no_persona_bound_to_respond_witness :
    ∃ s', handleSendMessage (run [.clickStart 0, .typeInput "hello"] : MeetingState ℚ)
        (fun _ => PersonaEnv.mk (9 / 10 : ℚ) .rejected 0 0) = .ok s' ∧
      s'.timers = (run [.clickStart 0, .typeInput "hello"] : MeetingState ℚ).timers ∧
      s'.chatMessages = (run [.clickStart 0, .typeInput "hello"] : MeetingState ℚ).chatMessages ∧
      s'.userInput = "" :=
  ((no_persona_bound_to_respond (run [.clickStart 0, .typeInput "hello"] : MeetingState ℚ)
    (by decide) (by decide)).2.2.2.1 (fun _ => PersonaEnv.mk (9 / 10 : ℚ) .rejected 0 0)
    (fun _ _ => by norm_num)).2

/-- C22, as stated, fails: the finance persona has the keyword "ROI", which
differs from its lower-cased form "roi". -/
theorem ROI_keyword_not_lowercase :
    (AI_BOTS.get ⟨4, by decide⟩).id = "finance" ∧
    "ROI" ∈ (AI_BOTS.get ⟨4, by decide⟩).keywords ∧
    toLowerCase "ROI" = "roi" ∧ toLowerCase "ROI" ≠ "ROI" := by
  decide

/-- C22, amended: every relevance keyword of every persona of `AI_BOTS` equals
its own lower-cased form, except the keyword "ROI" of the finance persona; the
keyword test of line 136 lower-cases each keyword before the search, so "ROI"
is matched as "roi", whatever the case in the message. -/
theorem keywords_lowercase_but_ROI (bot : Bot) (hbot : bot ∈ AI_BOTS)
    (keyword : String) (hkeyword : keyword ∈ bot.keywords) :
    (toLowerCase keyword = keyword ∨ (bot.id = "finance" ∧ keyword = "ROI")) ∧
    ∀ userMessage : String,
      includes (toLowerCase userMessage) (toLowerCase keyword) = true →
        hasKeyword bot userMessage = true := by
  have key : ∀ b ∈ AI_BOTS, ∀ k ∈ b.keywords,
      toLowerCase k = k ∨ (b.id = "finance" ∧ k = "ROI") := by decide
  refine ⟨key bot hbot keyword hkeyword, fun userMessage h => ?_⟩
  unfold hasKeyword
  rw [List.any_eq_true]
  exact ⟨keyword, hkeyword, h⟩

/-- C22, amended, at a concrete input: the keyword "ROI" of the finance persona
matches the message "What is the roi?". -/
theorem keywords_lowercase_but_ROI_witness :
    hasKeyword (AI_BOTS.get ⟨4, by decide⟩) "What is the roi?" = true :=
  (keywords_lowercase_but_ROI (AI_BOTS.get ⟨4, by decide⟩) (by decide) "ROI" (by decide)).2
    "What is the roi?" (by decide)

/-- C23: for a persona that passed the relevance filter and a response with a
success status whose parsed body is an object with the string `t` in its
property `message`, `generateBotResponseWithGemini` returns normally the
string `t` itself: the same characters in the same order, `#` and `*`
included. -/
theorem generated_text_verbatim {K : Type} [LinearOrderedField K] [FloorRing K]
    (bot : Bot) (userMessage : String) (env : PersonaEnv K)
    (hsel : filteredOut bot userMessage env.filterDraw = false)
    (status : Nat) (hok : statusOk status = true) (t : String)
    (hout : env.outcome = .response status (some (.object (.string t)))) :
    generateBotResponseWithGemini bot userMessage env = .ok (.string t) := by
  simp [generateBotResponseWithGemini, generateBotResponseWithGemini.tryCatch, hsel, hout,
    generateBotResponseWithGemini.tryBlock, hok, JsonData.message]

/-- C23, at a concrete input: the finance persona, the message "budget" and a
generated text with markdown characters. -/
theorem generated_text_verbatim_witness :
    generateBotResponseWithGemini (AI_BOTS.get ⟨4, by decide⟩) "budget"
        (PersonaEnv.mk (0 : ℚ) (.response 200 (some (.object (.string "# Plan: *cut* costs")))) 0 0) =
      .ok (.string "# Plan: *cut* costs") :=
  generated_text_verbatim (AI_BOTS.get ⟨4, by decide⟩) "budget"
    (PersonaEnv.mk (0 : ℚ) (.response 200 (some (.object (.string "# Plan: *cut* costs")))) 0 0)
    (by decide!) 200 (by decide) "# Plan: *cut* costs" rfl

end Selection

/-! ## Countdown display: claim C30 -/

section CountdownDisplay

/-- Two digits: the padded decimal form of a number below 100. -/
theorem padStart_two_digits (m : ℕ) (hm : m < 100) :
    padStart (toString ((m : ℕ) : ℤ)) 2 "0" =
      String.mk [Nat.digitChar (m / 10), Nat.digitChar (m % 10)] := by
  have key : ∀ k : Fin 100, padStart (toString (((k : ℕ) : ℕ) : ℤ)) 2 "0" =
      String.mk [Nat.digitChar ((k : ℕ) / 10), Nat.digitChar ((k : ℕ) % 10)] := by decide
  exact key ⟨m, hm⟩

/-- C30: for an integer number of seconds `s` with `0 ≤ s < 6000` (so for every
value from 0 to 900), `formatTime s` is a string of five characters: two
decimal digits `MM`, a colon and two decimal digits `SS`, with `SS < 60` and
`60 * MM + SS = s`; and `formatTime 900 = "15:00"`, `formatTime 0 = "00:00"`. -/
theorem formatTime_round_trip (s : ℤ) (h0 : 0 ≤ s) (h1 : s < 6000) :
    (∃ a b c d : ℕ, a < 10 ∧ b < 10 ∧ c < 10 ∧ d < 10 ∧
      formatTime s =
        String.mk [Nat.digitChar a, Nat.digitChar b, ':', Nat.digitChar c, Nat.digitChar d] ∧
      10 * c + d < 60 ∧ (60 * (10 * a + b) + (10 * c + d) : ℤ) = s) ∧
    (formatTime s).length = 5 ∧
    formatTime 900 = "15:00" ∧ formatTime 0 = "00:00" := by
  lift s to ℕ using h0
  have hn : s < 6000 := by exact_mod_cast h1
  have hmins : Int.fdiv (s : ℤ) 60 = ((s / 60 : ℕ) : ℤ) := by
    rw [Int.fdiv_eq_ediv _ (by norm_num)]
    omega
  have hsecs : Int.tmod (s : ℤ) 60 = ((s % 60 : ℕ) : ℤ) := by
    rw [Int.tmod_eq_emod (by omega) (by norm_num)]
    omega
  have hfmt : formatTime (s : ℤ) =
      String.mk [Nat.digitChar (s / 60 / 10), Nat.digitChar (s / 60 % 10), ':',
        Nat.digitChar (s % 60 / 10), Nat.digitChar (s % 60 % 10)] := by
    unfold formatTime
    simp only [hmins, hsecs]
    rw [padStart_two_digits (s / 60) (by omega), padStart_two_digits (s % 60) (by omega)]
    rfl
  refine ⟨⟨s / 60 / 10, s / 60 % 10, s % 60 / 10, s % 60 % 10, by omega, by omega, by omega,
    by omega, hfmt, by omega, ?_⟩, ?_, by decide, by decide⟩
  · push_cast
    omega
  · rw [hfmt]
    rfl

/-- C30, at a concrete input: 754 seconds are shown as "12:34". -/
theorem formatTime_round_trip_witness :
    formatTime 754 = "12:34" ∧ (formatTime 754).length = 5 ∧
    formatTime 900 = "15:00" ∧ formatTime 0 = "00:00" :=
  ⟨by decide, (formatTime_round_trip 754 (by decide) (by decide)).2⟩

end CountdownDisplay

end MeetingRoom

/-! # Chat advisor: claim C24 -/

namespace NeetiAI

open MeetingRoom

/-- C24: when the response carries the generated text `t`, the displayed reply
is `t` with every `#` and every `*` deleted and every other character kept, in
order; the reply contains neither `#` nor `*`; and cleaning a cleaned text
changes nothing. -/
theorem displayedReply_is_cleaned_text (t : String) :
    displayedReply (.part (.string t)) = clean t ∧
    (clean t).data = t.data.filter (fun c => c ≠ '#' ∧ c ≠ '*') ∧
    '#' ∉ (clean t).data ∧ '*' ∉ (clean t).data ∧
    (clean t).data.Sublist t.data ∧
    (∀ c : Char, c ≠ '#' → c ≠ '*' → (clean t).data.count c = t.data.count c) ∧
    clean (clean t) = clean t := by
  have hfilter : (clean t).data = t.data.filter (fun c => c ≠ '#' ∧ c ≠ '*') := by
    unfold clean
    show t.data.filter _ = t.data.filter _
    congr 1
    funext c
    by_cases h1 : c = '#' <;> by_cases h2 : c = '*' <;> simp [h1, h2]
  refine ⟨rfl, hfilter, ?_, ?_, ?_, ?_, ?_⟩
  · rw [hfilter]
    intro h
    have := (List.mem_filter.1 h).2
    simp at this
  · rw [hfilter]
    intro h
    have := (List.mem_filter.1 h).2
    simp at this
  · rw [hfilter]
    exact List.filter_sublist _
  · intro c h1 h2
    rw [hfilter, List.count_filter]
    simp [h1, h2]
  · apply String.ext
    rw [show (clean (clean t)).data = (clean t).data.filter (fun c => c ≠ '#' ∧ c ≠ '*') from by
      unfold clean
      show (t.data.filter _).filter _ = (t.data.filter _).filter _
      congr 1
      funext c
      by_cases h1 : c = '#' <;> by_cases h2 : c = '*' <;> simp [h1, h2]]
    rw [hfilter, List.filter_filter]
    congr 1
    funext c
    simp

end NeetiAI

/-! # Signup: claim C25 -/

namespace Auth

open MeetingRoom

/-- The generated user id holds only the characters `a`-`z` and `0`-`9`. -/
theorem userId_chars (email : String) : ∀ c ∈ (userId email).data, isLowerAlnum c = true := by
  intro c hc
  exact (List.mem_filter.1 hc).2

/-- C25, evaluated where it fails: `handleSignup` accepts the email
`alexandra.konstantinopoulos@international-consulting.example.com` and passes
to `account.create` a user id of 59 characters, more than 36; and it accepts
the non-empty email `@`, for which the user id is empty. -/
theorem long_email_gives_long_user_id :
    ((handleSignup
        { name := "Alexandra"
          email := "alexandra.konstantinopoulos@international-consulting.example.com"
          password := "correct horse" }).toOption.map fun args => args.1) =
      some "alexandrakonstantinopoulosinternationalconsultingexamplecom" ∧
    (userId "alexandra.konstantinopoulos@international-consulting.example.com").length = 59 ∧
    ¬ (userId "alexandra.konstantinopoulos@international-consulting.example.com").length ≤ 36 ∧
    ((handleSignup { name := "A", email := "@", password := "b" }).toOption.map
      fun args => args.1) = some "" := by
  decide

end Auth

/-! # Blind-spot assessment: claims C28 and C29 -/

namespace BlindSpotDetectorApp

open MeetingRoom

/-- The rounding is the floor or the floor plus one. -/
theorem roundHalfEven_bounds (x : ℚ) : ⌊x⌋ ≤ roundHalfEven x ∧ roundHalfEven x ≤ ⌊x⌋ + 1 := by
  unfold roundHalfEven
  split_ifs <;> constructor <;> omega

/-- An integer is its own rounding. -/
theorem roundHalfEven_intCast (N : ℤ) : roundHalfEven (N : ℚ) = N := by
  unfold roundHalfEven
  simp

/-- The rounding of a number below an integer stays below it. -/
theorem roundHalfEven_le (x : ℚ) (N : ℤ) (h : x ≤ N) : roundHalfEven x ≤ N := by
  rcases eq_or_lt_of_le h with h | h
  · rw [h, roundHalfEven_intCast]
  · have : ⌊x⌋ < N := Int.floor_lt.2 h
    have := (roundHalfEven_bounds x).2
    omega

/-- The rounding of a non-negative number is non-negative. -/
theorem roundHalfEven_nonneg (x : ℚ) (h : 0 ≤ x) : 0 ≤ roundHalfEven x :=
  le_trans (Int.floor_nonneg.2 h) (roundHalfEven_bounds x).1

/-- The double nearest to a non-negative number is non-negative. -/
theorem toDouble_nonneg (x : ℚ) (h : 0 ≤ x) : 0 ≤ toDouble x := by
  unfold toDouble
  split_ifs
  · exact le_refl _
  · apply mul_nonneg
    · exact_mod_cast roundHalfEven_nonneg _ (div_nonneg h (by positivity))
    · positivity

/-- The double nearest to a positive number below a natural number `c` (itself
a double: `c < 2 ^ 53`) is at most `c`. -/
theorem toDouble_le_natCast (x : ℚ) (c : ℕ) (h0 : 0 < x) (hc : x ≤ c) (hc2 : c < 2 ^ 53) :
    toDouble x ≤ c := by
  have habs : |x| = x := abs_of_pos h0
  have hlog : Int.log 2 x ≤ 52 := by
    by_contra hcon
    push_neg at hcon
    have h1 : ((2 : ℕ) : ℚ) ^ Int.log 2 x ≤ x := Int.zpow_log_le_self (by norm_num) h0
    have h2 : ((2 : ℕ) : ℚ) ^ (53 : ℤ) ≤ ((2 : ℕ) : ℚ) ^ Int.log 2 x :=
      zpow_le_zpow_right₀ (by norm_num) (by omega)
    have h3 : (c : ℚ) < 2 ^ 53 := by exact_mod_cast hc2
    have h4 : ((2 : ℕ) : ℚ) ^ (53 : ℤ) = 2 ^ 53 := by norm_num
    linarith
  unfold toDouble
  rw [if_neg (ne_of_gt h0), habs]
  set e := Int.log 2 x with he
  have hu : (0 : ℚ) < 2 ^ (e - 52) := by positivity
  obtain ⟨m, hm⟩ : ∃ m : ℕ, 52 - e = (m : ℤ) := ⟨(52 - e).toNat, by omega⟩
  have hinv : (1 : ℚ) / 2 ^ (e - 52) = ((2 ^ m : ℕ) : ℚ) := by
    have : e - 52 = -(m : ℤ) := by omega
    rw [this, zpow_neg, zpow_natCast]
    push_cast
    field_simp
  have hle : x / 2 ^ (e - 52) ≤ (((c * 2 ^ m : ℕ) : ℤ) : ℚ) := by
    have : x / 2 ^ (e - 52) = x * (1 / 2 ^ (e - 52)) := by ring
    rw [this, hinv]
    push_cast
    exact mul_le_mul_of_nonneg_right hc (by positivity)
  have hr := roundHalfEven_le _ _ hle
  have hr' : (roundHalfEven (x / 2 ^ (e - 52)) : ℚ) ≤ (((c * 2 ^ m : ℕ) : ℤ) : ℚ) := by
    exact_mod_cast hr
  calc (roundHalfEven (x / 2 ^ (e - 52)) : ℚ) * 2 ^ (e - 52)
      ≤ (((c * 2 ^ m : ℕ) : ℤ) : ℚ) * 2 ^ (e - 52) := mul_le_mul_of_nonneg_right hr' hu.le
    _ = c := by
        push_cast
        have h2 : ((2 : ℚ) ^ m) * 2 ^ (e - 52) = 1 := by
          have := hinv
          push_cast at this
          rw [← this]
          field_simp
        rw [mul_assoc, h2, mul_one]

/-- The risk score of `k` negative answers among `n ≥ 1` questions, `k ≤ n`, is
between 0 and 100. -/
theorem riskScore_bounds (k n : ℕ) (hn : 1 ≤ n) (hk : k ≤ n) :
    0 ≤ generateAnalysis.riskScore k n ∧ generateAnalysis.riskScore k n ≤ 100 := by
  unfold generateAnalysis.riskScore mathRound
  have hn0 : (0 : ℚ) < n := by exact_mod_cast hn
  have hq0 : (0 : ℚ) ≤ (k : ℚ) / n := by positivity
  have hq1 : (k : ℚ) / n ≤ 1 := by
    rw [div_le_one hn0]
    exact_mod_cast hk
  have hy0 := toDouble_nonneg _ hq0
  have hy1 : toDouble ((k : ℚ) / n) ≤ 1 := by
    rcases eq_or_lt_of_le hq0 with h | h
    · rw [← h]
      simp [toDouble]
    · have := toDouble_le_natCast _ 1 h (by simpa using hq1) (by norm_num)
      simpa using this
  have hz0 : 0 ≤ toDouble ((k : ℚ) / n) * 100 := by positivity
  have hz1 : toDouble ((k : ℚ) / n) * 100 ≤ 100 := by linarith
  have hw0 := toDouble_nonneg _ hz0
  have hw1 : toDouble (toDouble ((k : ℚ) / n) * 100) ≤ 100 := by
    rcases eq_or_lt_of_le hz0 with h | h
    · rw [← h]
      simp [toDouble]
    · have := toDouble_le_natCast _ 100 h (by simpa using hz1) (by norm_num)
      simpa using this
  constructor
  · apply Int.floor_nonneg.2
    linarith
  · have : ⌊toDouble (toDouble ((k : ℚ) / n) * 100) + 1 / 2⌋ < 101 := by
      rw [Int.floor_lt]
      push_cast
      linarith
    omega


/-- A key outside the object reads `undefined`. -/
theorem lookup_eq_none_of_not_mem (r : Responses) (k : String)
    (h : k ∉ r.map Prod.fst) : r.lookup k = none := by
  induction r with
  | nil => rfl
  | cons e r ih =>
    obtain ⟨k', v'⟩ := e
    simp only [List.map_cons, List.mem_cons, not_or] at h
    have hne : (k == k') = false := by simpa using h.1
    rw [List.lookup_cons, hne]
    exact ih h.2

/-- The questions answered false after one more entry is put in front of the
responses. -/
theorem countP_lookup_cons (qs : List Question) (k : String) (v : Bool) (r : Responses)
    (hk : r.lookup k = none) :
    qs.countP (fun q => List.lookup q.id ((k, v) :: r) == some false) =
      qs.countP (fun q => r.lookup q.id == some false) +
        (if v = false then qs.countP (fun q => q.id == k) else 0) := by
  induction qs with
  | nil => simp
  | cons q qs ih =>
    rw [List.countP_cons, List.countP_cons, List.countP_cons, ih]
    by_cases hq : q.id = k
    · have h1 : (q.id == k) = true := by simpa using hq
      have hhead : (List.lookup q.id ((k, v) :: r) == some false) = (v == false) := by
        rw [List.lookup_cons, h1]
        cases v <;> rfl
      have hold : (r.lookup q.id == some false) = false := by
        rw [hq, hk]
        rfl
      rw [hhead, hold, h1]
      cases v <;> (simp; try omega)
    · have h1 : (q.id == k) = false := by simpa using hq
      have hhead : (List.lookup q.id ((k, v) :: r) == some false) =
          (r.lookup q.id == some false) := by
        rw [List.lookup_cons, h1]
      rw [hhead, h1]
      cases v <;> (simp; try omega)

/-- An id of the questionnaire belongs to exactly one question. -/
theorem countP_id_eq_one (qs : List Question) (k : String)
    (hids : (qs.map fun q => q.id).Nodup) (hk : k ∈ qs.map fun q => q.id) :
    qs.countP (fun q => q.id == k) = 1 := by
  have h := List.count_eq_one_of_mem hids hk
  rw [List.count, List.countP_map] at h
  rw [← h]
  rfl

/-- With distinct question ids and responses keyed by question ids, the
questions answered false are as many as the false values of the responses. -/
theorem answered_false_count (qs : List Question) (r : Responses)
    (hids : (qs.map fun q => q.id).Nodup) (hkeys : (r.map Prod.fst).Nodup)
    (hsub : ∀ key ∈ r.map Prod.fst, key ∈ qs.map fun q => q.id) :
    (qs.filter fun q => r.lookup q.id == some false).length =
      generateAnalysis.negativeResponses r := by
  rw [← List.countP_eq_length_filter]
  induction r with
  | nil => simp [generateAnalysis.negativeResponses]
  | cons e r ih =>
    obtain ⟨k, v⟩ := e
    simp only [List.map_cons, List.nodup_cons] at hkeys
    have hnone := lookup_eq_none_of_not_mem r k hkeys.1
    have hmem : k ∈ qs.map fun q => q.id := hsub k (by simp)
    rw [countP_lookup_cons qs k v r hnone, countP_id_eq_one qs k hids hmem,
      ih hkeys.2 (fun key hkey => hsub key (by simp [hkey]))]
    cases v <;> simp [generateAnalysis.negativeResponses]


/-- Every mock questionnaire has five questions. -/
theorem mock_five_questions (q : Questionnaire) (hq : q ∈ mockQuestionnaires) :
    q.questions.length = 5 := by
  have key : ∀ x ∈ mockQuestionnaires, x.questions.length = 5 := by decide
  exact key q hq

/-- For a questionnaire with `n ≥ 1` questions with distinct ids and responses
whose keys are ids of its questions, `generateAnalysis` returns as many blind
spots as questions answered false, which is the number of false values of the
responses, and as many recommendations; the risk score is the value of line
166, between 0 and 100, and for `n = 5` it is `20 * k`. -/
theorem generateAnalysis_counts_and_score (questionnaire : Questionnaire)
    (responses : Responses) (random : Question → ℚ) (now : Nat)
    (hn : 1 ≤ questionnaire.questions.length)
    (hids : (questionnaire.questions.map fun q => q.id).Nodup)
    (hkeys : (responses.map Prod.fst).Nodup)
    (hsub : ∀ key ∈ responses.map Prod.fst, key ∈ questionnaire.questions.map fun q => q.id) :
    (generateAnalysis questionnaire responses random now).blind_spots.length =
      (questionnaire.questions.filter fun q => responses.lookup q.id == some false).length ∧
    (generateAnalysis questionnaire responses random now).blind_spots.length =
      generateAnalysis.negativeResponses responses ∧
    (generateAnalysis questionnaire responses random now).recommendations.length =
      (generateAnalysis questionnaire responses random now).blind_spots.length ∧
    (generateAnalysis questionnaire responses random now).risk_score =
      mathRound (toDouble (toDouble
        ((generateAnalysis.negativeResponses responses : ℚ) /
          (questionnaire.questions.length : ℚ)) * 100)) ∧
    0 ≤ (generateAnalysis questionnaire responses random now).risk_score ∧
    (generateAnalysis questionnaire responses random now).risk_score ≤ 100 ∧
    (questionnaire.questions.length = 5 →
      (generateAnalysis questionnaire responses random now).risk_score =
        20 * (generateAnalysis.negativeResponses responses : ℤ) ∧
      (generateAnalysis questionnaire responses random now).risk_score =
        mathRound (100 * (generateAnalysis.negativeResponses responses : ℚ) / 5)) := by
  have hcount := answered_false_count questionnaire.questions responses hids hkeys hsub
  have hlen : (generateAnalysis questionnaire responses random now).blind_spots.length =
      (questionnaire.questions.filter fun q => responses.lookup q.id == some false).length := by
    simp [generateAnalysis, generateAnalysis.blindSpots]
  have hk : generateAnalysis.negativeResponses responses ≤ questionnaire.questions.length := by
    rw [← hcount]
    exact List.length_filter_le _ _
  have hb := riskScore_bounds _ _ hn hk
  refine ⟨hlen, hlen.trans hcount, ?_, rfl, hb.1, hb.2, fun h5 => ?_⟩
  · simp [generateAnalysis, generateAnalysis.recommendations]
  · have key : ∀ k : Fin 6, generateAnalysis.riskScore k 5 = 20 * ((k : ℕ) : ℤ) ∧
        generateAnalysis.riskScore k 5 = mathRound (100 * ((k : ℕ) : ℚ) / 5) := by decide!
    have hk5 : generateAnalysis.negativeResponses responses < 6 := by omega
    have := key ⟨_, hk5⟩
    show generateAnalysis.riskScore _ questionnaire.questions.length = _ ∧
      generateAnalysis.riskScore _ questionnaire.questions.length = _
    rw [h5]
    exact this

/-- The ids of the questions of a mock questionnaire are distinct. -/
theorem mock_distinct_ids (q : Questionnaire) (hq : q ∈ mockQuestionnaires) :
    (q.questions.map fun x => x.id).Nodup := by
  have key : ∀ x ∈ mockQuestionnaires, (x.questions.map fun y => y.id).Nodup := by decide
  exact key q hq

/-- C28: for every questionnaire that `generateAnalysis` is called with, a
member of `mockQuestionnaires` (line 237), which has `n = 5 ≥ 1` questions
with distinct ids, and every response map whose keys are ids of its
questions, `generateAnalysis` returns a number `k` of blind spots equal to the
number of questions answered false, the same number `k` of recommendations,
and `risk_score = round(100 * k / n)`, which lies between 0 and 100. -/
theorem blind_spot_analysis_score (questionnaire : Questionnaire)
    (hq : questionnaire ∈ mockQuestionnaires)
    (responses : Responses) (random : Question → ℚ) (now : Nat)
    (hkeys : (responses.map Prod.fst).Nodup)
    (hsub : ∀ key ∈ responses.map Prod.fst, key ∈ questionnaire.questions.map fun q => q.id) :
    1 ≤ questionnaire.questions.length ∧
    (questionnaire.questions.map fun q => q.id).Nodup ∧
    (generateAnalysis questionnaire responses random now).blind_spots.length =
      (questionnaire.questions.filter fun q => responses.lookup q.id == some false).length ∧
    (generateAnalysis questionnaire responses random now).recommendations.length =
      (questionnaire.questions.filter fun q => responses.lookup q.id == some false).length ∧
    (generateAnalysis questionnaire responses random now).risk_score =
      mathRound (100 *
        ((questionnaire.questions.filter fun q => responses.lookup q.id == some false).length : ℚ) /
          (questionnaire.questions.length : ℚ)) ∧
    0 ≤ (generateAnalysis questionnaire responses random now).risk_score ∧
    (generateAnalysis questionnaire responses random now).risk_score ≤ 100 := by
  have h5 := mock_five_questions questionnaire hq
  have hids := mock_distinct_ids questionnaire hq
  have hn : 1 ≤ questionnaire.questions.length := by omega
  obtain ⟨hlen, hneg, hrec, -, h0, h100, hfive⟩ :=
    generateAnalysis_counts_and_score questionnaire responses random now hn hids hkeys hsub
  refine ⟨hn, hids, hlen, hrec.trans hlen, ?_, h0, h100⟩
  rw [(hfive h5).2, ← hlen, hneg, h5]
  norm_num

/-- C28 at a concrete input: the first mock questionnaire, with the first
question answered false and the second true: one blind spot, one
recommendation and the risk score `round(100 * 1 / 5) = 20`. -/
theorem blind_spot_analysis_score_witness :
    (generateAnalysis (mockQuestionnaires.get ⟨0, by decide⟩)
      (run [.select 0, .respond false, .next, .respond true]).responses
      (fun _ => 1 / 2) 7).blind_spots.length = 1 ∧
    (generateAnalysis (mockQuestionnaires.get ⟨0, by decide⟩)
      (run [.select 0, .respond false, .next, .respond true]).responses
      (fun _ => 1 / 2) 7).recommendations.length = 1 ∧
    (generateAnalysis (mockQuestionnaires.get ⟨0, by decide⟩)
      (run [.select 0, .respond false, .next, .respond true]).responses
      (fun _ => 1 / 2) 7).risk_score = 20 := by
  have h := blind_spot_analysis_score (mockQuestionnaires.get ⟨0, by decide⟩) (by decide)
    (run [.select 0, .respond false, .next, .respond true]).responses (fun _ => 1 / 2) 7
    (by decide) (by decide)
  have hk : ((mockQuestionnaires.get ⟨0, by decide⟩).questions.filter fun q =>
      (run [.select 0, .respond false, .next, .respond true]).responses.lookup q.id ==
        some false).length = 1 := by decide
  have h5 : (mockQuestionnaires.get ⟨0, by decide⟩).questions.length = 5 := by decide
  refine ⟨?_, ?_, ?_⟩
  · rw [h.2.2.1, hk]
  · rw [h.2.2.2.1, hk]
  · rw [h.2.2.2.2.1, hk, h5]
    decide!

/-- Every step keeps the navigation invariant. -/
theorem navigation_step (s : AppState) (a : Action) (hs : InBounds s) : InBounds (step s a) := by
  cases a with
  | select card =>
    show InBounds (match mockQuestionnaires.get? card with
      | none => s
      | some questionnaire => handleQuestionnaireSelect s questionnaire)
    cases hget : mockQuestionnaires.get? card with
    | none => exact hs
    | some questionnaire =>
      intro q hq
      have hmem : questionnaire ∈ mockQuestionnaires := List.get?_mem hget
      have hqq : questionnaire = q := Option.some.inj hq
      subst hqq
      have h5 := mock_five_questions questionnaire hmem
      refine ⟨hmem, le_refl _, ?_⟩
      show (0 : ℤ) < (questionnaire.questions.length : ℤ)
      omega
  | respond value =>
    show InBounds (match s.selectedQuestionnaire with
      | none => s
      | some questionnaire =>
        if s.currentView = "questionnaire" then
          match elementAt questionnaire.questions s.currentQuestionIndex with
          | none => s
          | some currentQuestion => handleResponse s currentQuestion.id value
        else s)
    cases s.selectedQuestionnaire with
    | none => exact hs
    | some questionnaire =>
      show InBounds (if s.currentView = "questionnaire" then
          match elementAt questionnaire.questions s.currentQuestionIndex with
          | none => s
          | some currentQuestion => handleResponse s currentQuestion.id value
        else s)
      split
      · cases elementAt questionnaire.questions s.currentQuestionIndex with
        | none => exact hs
        | some cq => exact hs
      · exact hs
  | next =>
    show InBounds (nextQuestion s)
    intro q hq
    have hsel : (nextQuestion s).selectedQuestionnaire = s.selectedQuestionnaire := by
      unfold nextQuestion
      split
      · rfl
      · split <;> rfl
    rw [hsel] at hq
    obtain ⟨h1, h2, h3⟩ := hs q hq
    have hidx : (nextQuestion s).currentQuestionIndex =
        if s.currentQuestionIndex < (q.questions.length : ℤ) - 1 then s.currentQuestionIndex + 1
        else s.currentQuestionIndex := by
      unfold nextQuestion
      rw [hq]
      dsimp only
      split <;> rfl
    rw [hidx]
    refine ⟨h1, ?_, ?_⟩ <;> split <;> omega
  | previous =>
    show InBounds (previousQuestion s)
    unfold previousQuestion
    split
    · rename_i hpos
      intro q hq
      obtain ⟨h1, h2, h3⟩ := hs q hq
      refine ⟨h1, ?_, ?_⟩
      · show 0 ≤ s.currentQuestionIndex - 1
        omega
      · show s.currentQuestionIndex - 1 < _
        omega
    · exact hs
  | submit random now =>
    show InBounds (submitAssessment s random now)
    have hsel : (submitAssessment s random now).selectedQuestionnaire =
        s.selectedQuestionnaire := by
      unfold submitAssessment
      split <;> rfl
    have hidx : (submitAssessment s random now).currentQuestionIndex =
        s.currentQuestionIndex := by
      unfold submitAssessment
      split <;> rfl
    intro q hq
    rw [hsel] at hq
    rw [hidx]
    exact hs q hq
  | setView view =>
    show InBounds (if view = "questionnaire" then s else { s with currentView := view })
    split
    · exact hs
    · exact hs
  | viewResults assessment =>
    show InBounds (match s.completedAssessments.get? assessment with
      | none => s
      | some analysis => { s with analysisResult := some analysis, currentView := "results" })
    cases s.completedAssessments.get? assessment with
    | none => exact hs
    | some analysis => exact hs

/-- Every reachable state satisfies the navigation invariant. -/
theorem inBounds_of_reachable (s : AppState) (hs : Reachable s) : InBounds s := by
  obtain ⟨actions, rfl⟩ := hs
  unfold run
  induction actions using List.reverseRecOn with
  | nil =>
    intro q hq
    exact absurd hq (by simp [initialState])
  | append_singleton as a ih =>
    rw [List.foldl_append]
    exact navigation_step _ a ih

/-- C29: in every state reachable from the initial state by selecting mock
questionnaires, answering, moving to the next or the previous question,
submitting and changing the view, the selected questionnaire (when there is
one) is a mock questionnaire and the current index `i` satisfies
`0 ≤ i < number of its questions`, so the lookup of the current question in
the questionnaire view yields a question. -/
theorem question_index_in_bounds (s : AppState) (hs : Reachable s)
    (q : Questionnaire) (hq : s.selectedQuestionnaire = some q) :
    q ∈ mockQuestionnaires ∧ 0 ≤ s.currentQuestionIndex ∧
    s.currentQuestionIndex < (q.questions.length : ℤ) ∧
    ∃ currentQuestion, elementAt q.questions s.currentQuestionIndex = some currentQuestion := by
  have hinv : InBounds s := inBounds_of_reachable s hs
  obtain ⟨h1, h2, h3⟩ := hinv q hq
  refine ⟨h1, h2, h3, ?_⟩
  have hlt : s.currentQuestionIndex.toNat < q.questions.length := by omega
  refine ⟨q.questions.get ⟨_, hlt⟩, ?_⟩
  unfold elementAt
  rw [if_neg (not_lt.2 h2)]
  exact List.get?_eq_get hlt

/-- C29, at a concrete input: the second mock questionnaire is selected, then
five presses of "next" and one of "previous": the index is 3 of 5. -/
theorem question_index_in_bounds_witness :
    (run [.select 1, .next, .next, .next, .next, .next, .previous]).currentQuestionIndex = 3 ∧
    ∃ q, (run [.select 1, .next, .next, .next, .next, .next, .previous]).selectedQuestionnaire =
        some q ∧ q ∈ mockQuestionnaires ∧
      (run [.select 1, .next, .next, .next, .next, .next, .previous]).currentQuestionIndex <
        (q.questions.length : ℤ) :=
  ⟨by decide, mockQuestionnaires.get ⟨1, by decide⟩, by decide,
    (question_index_in_bounds
      (run [.select 1, .next, .next, .next, .next, .next, .previous]) ⟨_, rfl⟩
      (mockQuestionnaires.get ⟨1, by decide⟩) (by decide)).1,
    (question_index_in_bounds
      (run [.select 1, .next, .next, .next, .next, .next, .previous]) ⟨_, rfl⟩
      (mockQuestionnaires.get ⟨1, by decide⟩) (by decide)).2.2.1⟩

end BlindSpotDetectorApp

/-! # Market analysis: claims C26 and C27 -/

namespace MarketAnalysis

open MeetingRoom

/-- C26: for every analysis text and tab type, `parseAnalysisToBulletPoints`
returns at most 7 items; when the bullet-parsing pass yields at least 3 points
it returns the first 7 of them, in their order; otherwise it returns the
first 6 sentences at most, each trimmed. -/
theorem parseAnalysisToBulletPoints_limits (analysis tabType : String) :
    (parseAnalysisToBulletPoints analysis tabType).length ≤ 7 ∧
    (3 ≤ (parseAnalysisToBulletPoints.bulletPoints analysis).length →
      parseAnalysisToBulletPoints analysis tabType =
        (parseAnalysisToBulletPoints.bulletPoints analysis).take 7 ∧
      parseAnalysisToBulletPoints analysis tabType <+:
        parseAnalysisToBulletPoints.bulletPoints analysis) ∧
    ((parseAnalysisToBulletPoints.bulletPoints analysis).length < 3 →
      parseAnalysisToBulletPoints analysis tabType =
        ((parseAnalysisToBulletPoints.sentences analysis).take 6).map trim ∧
      (parseAnalysisToBulletPoints analysis tabType).length ≤ 6) := by
  unfold parseAnalysisToBulletPoints
  by_cases h : (parseAnalysisToBulletPoints.bulletPoints analysis).length ≥ 3
  · rw [if_pos h]
    refine ⟨?_, fun _ => ⟨rfl, List.take_prefix _ _⟩, fun h' => absurd h (by omega)⟩
    rw [List.length_take]
    omega
  · rw [if_neg h]
    have h6 : (((parseAnalysisToBulletPoints.sentences analysis).take 6).map trim).length ≤ 6 := by
      rw [List.length_map, List.length_take]
      omega
    exact ⟨by omega, fun h' => absurd h' h, fun _ => ⟨rfl, h6⟩⟩

/-- C27, evaluated where it fails: the text lists the weaknesses before the
strengths, and `extractPoints(text, 'strengths', 'weaknesses')` is called as
in line 240.  The start keyword is found at index 38; the end keyword does not
occur from there on, so `indexOf` gives `-1`, and `substring(38, -1)` is the
text from 0 to 38: the section is the part of the text that precedes the
start keyword, and the points are taken from it. -/
theorem missing_end_keyword_reads_preceding_text :
    indexOf (toLowerCase
      "Weaknesses:\n- limited market presence\nStrengths:\n- innovative product features")
      (toLowerCase "strengths") 0 = 38 ∧
    indexOf (toLowerCase
      "Weaknesses:\n- limited market presence\nStrengths:\n- innovative product features")
      (toLowerCase "weaknesses") 38 = -1 ∧
    extractPoints.sectionOf
      "Weaknesses:\n- limited market presence\nStrengths:\n- innovative product features"
      "strengths" "weaknesses" = some "Weaknesses:\n- limited market presence\n" ∧
    (∀ points : String → List String,
      extractPoints points
        "Weaknesses:\n- limited market presence\nStrengths:\n- innovative product features"
        "strengths" "weaknesses" = points "Weaknesses:\n- limited market presence\n") := by
  have h : extractPoints.sectionOf
      "Weaknesses:\n- limited market presence\nStrengths:\n- innovative product features"
      "strengths" "weaknesses" = some "Weaknesses:\n- limited market presence\n" := by decide
  refine ⟨by decide, by decide, h, fun points => ?_⟩
  unfold extractPoints
  rw [h]

end MarketAnalysis

namespace BlindSpotDetectorApp

/-! ## Rounding a product to a double -/

/-- The rounding of a number above an integer stays above it. -/
theorem roundHalfEven_ge (x : ℚ) (N : ℤ) (h : (N : ℚ) ≤ x) : N ≤ roundHalfEven x :=
  le_trans (Int.le_floor.2 h) (roundHalfEven_bounds x).1

/-- A number below `N - 1 / 2` rounds to an integer below `N`. -/
theorem roundHalfEven_lt (x : ℚ) (N : ℤ) (h : x < (N : ℚ) - 1 / 2) : roundHalfEven x < N := by
  have hfl : ⌊x⌋ < N := Int.floor_lt.2 (by linarith)
  unfold roundHalfEven
  split_ifs with h1 h2 h3
  · exact hfl
  · by_contra hcon
    have hN : ⌊x⌋ = N - 1 := by omega
    rw [hN] at h2
    push_cast at h2
    linarith
  · exact hfl
  · by_contra hcon
    have hN : ⌊x⌋ = N - 1 := by omega
    rw [hN] at h1
    push_cast at h1
    linarith

/-- The binary exponent of a number of the binade from `2 ^ e` to `2 ^ (e + 1)`. -/
theorem log_two_eq (x : ℚ) (e : ℤ) (h0 : 0 < x) (hlo : (2 : ℚ) ^ e ≤ x)
    (hhi : x < (2 : ℚ) ^ (e + 1)) : Int.log 2 x = e := by
  have h1 : e ≤ Int.log 2 x := by
    rw [← Int.zpow_le_iff_le_log (by norm_num) h0]
    exact_mod_cast hlo
  have h2 : Int.log 2 x < e + 1 := by
    rw [← Int.lt_zpow_iff_log_lt (by norm_num) h0]
    exact_mod_cast hhi
  omega

/-- The double nearest to a number above a natural number `c` and below
`2 ^ 53` is at least `c`. -/
theorem toDouble_ge_natCast (x : ℚ) (c : ℕ) (hc : (c : ℚ) ≤ x) (hx : x < 2 ^ 53) :
    (c : ℚ) ≤ toDouble x := by
  have hx0 : 0 ≤ x := le_trans (Nat.cast_nonneg c) hc
  rcases eq_or_lt_of_le hx0 with h | h0
  · rw [← h] at hc ⊢
    simpa [toDouble] using hc
  have habs : |x| = x := abs_of_pos h0
  have hlog : Int.log 2 x ≤ 52 := by
    have : Int.log 2 x < 53 := by
      rw [← Int.lt_zpow_iff_log_lt (by norm_num) h0]
      exact_mod_cast hx
    omega
  unfold toDouble
  rw [if_neg (ne_of_gt h0), habs]
  set e := Int.log 2 x with he
  have hu : (0 : ℚ) < 2 ^ (e - 52) := by positivity
  obtain ⟨m, hm⟩ : ∃ m : ℕ, 52 - e = (m : ℤ) := ⟨(52 - e).toNat, by omega⟩
  have hinv : (1 : ℚ) / 2 ^ (e - 52) = ((2 ^ m : ℕ) : ℚ) := by
    have : e - 52 = -(m : ℤ) := by omega
    rw [this, zpow_neg, zpow_natCast]
    push_cast
    field_simp
  have hle : (((c * 2 ^ m : ℕ) : ℤ) : ℚ) ≤ x / 2 ^ (e - 52) := by
    have : x / 2 ^ (e - 52) = x * (1 / 2 ^ (e - 52)) := by ring
    rw [this, hinv]
    push_cast
    exact mul_le_mul_of_nonneg_right hc (by positivity)
  have hr := roundHalfEven_ge _ _ hle
  have hr' : (((c * 2 ^ m : ℕ) : ℤ) : ℚ) ≤ (roundHalfEven (x / 2 ^ (e - 52)) : ℚ) := by
    exact_mod_cast hr
  calc (c : ℚ) = (((c * 2 ^ m : ℕ) : ℤ) : ℚ) * 2 ^ (e - 52) := by
        push_cast
        have h2 : ((2 : ℚ) ^ m) * 2 ^ (e - 52) = 1 := by
          have := hinv
          push_cast at this
          rw [← this]
          field_simp
        rw [mul_assoc, h2, mul_one]
    _ ≤ (roundHalfEven (x / 2 ^ (e - 52)) : ℚ) * 2 ^ (e - 52) :=
        mul_le_mul_of_nonneg_right hr' hu.le

/-- For a double `r` of `[0,1)` the product `r * 3`, rounded to a double, is
below 3: the largest such `r` is `1 - 2 ^ (-53)`, and `3 - 3 * 2 ^ (-53)`
rounds to `3 - 2 ^ (-51)`. -/
theorem toDouble_mul_three_lt (r : ℚ) (hd : toDouble r = r) (h0 : 0 ≤ r) (h1 : r < 1) :
    toDouble (r * 3) < 3 := by
  rcases le_or_lt (r * 3) 2 with h2 | h2
  · rcases eq_or_lt_of_le h0 with h | hpos
    · rw [← h]
      simp [toDouble]
    · have := toDouble_le_natCast (r * 3) 2 (by positivity) (by exact_mod_cast h2) (by norm_num)
      push_cast at this
      linarith
  · have hr0 : 0 < r := by linarith
    have hlogr : Int.log 2 r = -1 :=
      log_two_eq r (-1) hr0 (by norm_num; linarith) (by norm_num; linarith)
    have hlogx : Int.log 2 (r * 3) = 1 :=
      log_two_eq (r * 3) 1 (by positivity) (by norm_num; linarith) (by norm_num; linarith)
    have hr : r = (roundHalfEven (r / 2 ^ ((-1 : ℤ) - 52)) : ℚ) * 2 ^ ((-1 : ℤ) - 52) := by
      have := hd
      unfold toDouble at this
      rw [if_neg (ne_of_gt hr0), abs_of_pos hr0, hlogr] at this
      exact this.symm
    set m := roundHalfEven (r / 2 ^ ((-1 : ℤ) - 52)) with hm
    have hpow : (2 : ℚ) ^ ((-1 : ℤ) - 52) = 1 / 2 ^ 53 := by norm_num
    rw [hpow] at hr
    have hm1 : m < 2 ^ 53 := by
      have : (m : ℚ) < 2 ^ 53 := by
        rw [hr] at h1
        have h53 : (0 : ℚ) < 2 ^ 53 := by positivity
        rw [mul_one_div, div_lt_one h53] at h1
        exact h1
      exact_mod_cast this
    have hm2 : (m : ℚ) ≤ 2 ^ 53 - 1 := by
      have : m ≤ 2 ^ 53 - 1 := by omega
      exact_mod_cast this
    have hx0 : (0 : ℚ) < r * 3 := by positivity
    unfold toDouble
    rw [if_neg (ne_of_gt hx0), abs_of_pos hx0, hlogx]
    have hpow2 : (2 : ℚ) ^ ((1 : ℤ) - 52) = 1 / 2 ^ 51 := by norm_num
    rw [hpow2]
    have hlt : roundHalfEven (r * 3 / (1 / 2 ^ 51)) < 3 * 2 ^ 51 := by
      apply roundHalfEven_lt
      rw [hr]
      push_cast
      norm_num
      norm_num at hm2
      linarith
    have hle : (roundHalfEven (r * 3 / (1 / 2 ^ 51)) : ℚ) ≤ 3 * 2 ^ 51 - 1 := by
      have : roundHalfEven (r * 3 / (1 / 2 ^ 51)) ≤ 3 * 2 ^ 51 - 1 := by omega
      exact_mod_cast this
    have h51 : (0 : ℚ) < 1 / 2 ^ 51 := by positivity
    calc (roundHalfEven (r * 3 / (1 / 2 ^ 51)) : ℚ) * (1 / 2 ^ 51)
        ≤ (3 * 2 ^ 51 - 1) * (1 / 2 ^ 51) := mul_le_mul_of_nonneg_right hle h51.le
      _ < 3 := by norm_num

end BlindSpotDetectorApp

namespace MeetingRoom

/-! ## Fallback choice in double precision: claim C18 -/

section FallbackChoice

/-- C18, as stated, fails: the draw `0.6666666666666666`, the double
`6004799503160661 / 2 ^ 53` just below two thirds, has `floor (r * 3) = 1`,
but the code rounds the product `r * 3` to the double 2, so
`generateFallbackResponse` returns the third string of the finance bucket, not
the second one, which is the string at index `floor (r * 3)`. -/
theorem fallback_draw_below_two_thirds :
    BlindSpotDetectorApp.toDouble (6004799503160661 / 9007199254740992) =
      6004799503160661 / 9007199254740992 ∧
    (0 : ℚ) ≤ 6004799503160661 / 9007199254740992 ∧
    (6004799503160661 / 9007199254740992 : ℚ) < 1 ∧
    ⌊(6004799503160661 / 9007199254740992 : ℚ) * 3⌋ = 1 ∧
    BlindSpotDetectorApp.toDouble (6004799503160661 / 9007199254740992 * 3) = 2 ∧
    (generateFallbackResponse.responses.lookup (AI_BOTS.get ⟨4, by decide⟩).id).map
        (fun table => (table.get? 1, table.get? 2)) =
      some (some "We need to conduct a thorough cost-benefit analysis before proceeding.",
        some "Let's review the financial implications and identify potential revenue opportunities.") ∧
    generateFallbackResponseDouble (AI_BOTS.get ⟨4, by decide⟩) "hello"
        (6004799503160661 / 9007199254740992) =
      .string "Let's review the financial implications and identify potential revenue opportunities." ∧
    generateFallbackResponseDouble (AI_BOTS.get ⟨4, by decide⟩) "hello"
        (6004799503160661 / 9007199254740992) ≠
      .string "We need to conduct a thorough cost-benefit analysis before proceeding." := by
  decide!

/-- C18, amended: every persona of `AI_BOTS` has its own bucket of `k = 3`
strings in the fallback table, and for every draw `r` of `[0,1)`, a double,
`generateFallbackResponse` returns the string at index `Math.floor(r * k)`
with the product rounded to a double, which is a valid index; that index is
`floor (r * k)` of the exact product, or `floor (r * k) + 1` when the product
rounds up to that integer. -/
theorem fallback_choice_defined (bot : Bot) (hbot : bot ∈ AI_BOTS) (userMessage : String)
    (r : ℚ) (hd : BlindSpotDetectorApp.toDouble r = r) (h0 : 0 ≤ r) (h1 : r < 1) :
    ∃ table, generateFallbackResponse.responses.lookup bot.id = some table ∧
      table.length = 3 ∧
      ∃ i, ∃ hi : i < table.length,
        ⌊BlindSpotDetectorApp.toDouble (r * (table.length : ℚ))⌋ = (i : ℤ) ∧
        generateFallbackResponseDouble bot userMessage r = .string (table.get ⟨i, hi⟩) ∧
        ((i : ℤ) = ⌊r * (table.length : ℚ)⌋ ∨
          ((i : ℤ) = ⌊r * (table.length : ℚ)⌋ + 1 ∧
            BlindSpotDetectorApp.toDouble (r * (table.length : ℚ)) = (i : ℚ))) := by
  obtain ⟨table, htable, hlen, -⟩ := responses_lookup_nodup bot hbot
  refine ⟨table, htable, hlen, ?_⟩
  have hcast : (table.length : ℚ) = 3 := by rw [hlen]; norm_num
  rw [hcast]
  have hx0 : (0 : ℚ) ≤ r * 3 := by positivity
  have hx3 : r * 3 < 2 ^ 53 := by
    have : r * 3 < 3 := by linarith
    linarith [show (3 : ℚ) < 2 ^ 53 by norm_num]
  have hlt := BlindSpotDetectorApp.toDouble_mul_three_lt r hd h0 h1
  have hf0 : 0 ≤ ⌊r * 3⌋ := Int.floor_nonneg.2 hx0
  obtain ⟨c, hc⟩ : ∃ c : ℕ, ⌊r * 3⌋ = (c : ℤ) := ⟨⌊r * 3⌋.toNat, by omega⟩
  have hcle : (c : ℚ) ≤ r * 3 := by
    have := Int.floor_le (r * 3)
    rw [hc] at this
    exact_mod_cast this
  have hclt : r * 3 < (c : ℚ) + 1 := by
    have := Int.lt_floor_add_one (r * 3)
    rw [hc] at this
    exact_mod_cast this
  have hc3 : c < 3 := by
    have : (c : ℚ) < 3 := by linarith
    exact_mod_cast this
  have hlow := BlindSpotDetectorApp.toDouble_ge_natCast (r * 3) c hcle hx3
  have hup : BlindSpotDetectorApp.toDouble (r * 3) ≤ (c : ℚ) + 1 := by
    rcases eq_or_lt_of_le hx0 with h | hpos
    · rw [← h]
      have : BlindSpotDetectorApp.toDouble 0 = 0 := by simp [BlindSpotDetectorApp.toDouble]
      rw [this]
      positivity
    · have := BlindSpotDetectorApp.toDouble_le_natCast (r * 3) (c + 1) hpos
        (by push_cast; linarith) (by omega)
      exact_mod_cast this
  have hj0 : (c : ℤ) ≤ ⌊BlindSpotDetectorApp.toDouble (r * 3)⌋ := Int.le_floor.2 (by exact_mod_cast hlow)
  have hj1 : ⌊BlindSpotDetectorApp.toDouble (r * 3)⌋ ≤ (c : ℤ) + 1 := by
    have h := Int.floor_le (BlindSpotDetectorApp.toDouble (r * 3))
    have : ((⌊BlindSpotDetectorApp.toDouble (r * 3)⌋ : ℤ) : ℚ) ≤ (((c : ℤ) + 1 : ℤ) : ℚ) := by
      push_cast
      linarith
    exact_mod_cast this
  have hj3 : ⌊BlindSpotDetectorApp.toDouble (r * 3)⌋ < 3 := Int.floor_lt.2 (by exact_mod_cast hlt)
  have hjn : (0 : ℤ) ≤ ⌊BlindSpotDetectorApp.toDouble (r * 3)⌋ := by omega
  have hi : ⌊BlindSpotDetectorApp.toDouble (r * 3)⌋.toNat < table.length := by omega
  refine ⟨_, hi, (Int.toNat_of_nonneg hjn).symm, ?_, ?_⟩
  · unfold generateFallbackResponseDouble
    rw [htable]
    unfold generateFallbackResponse.pickDouble
    simp only [hcast, not_lt.2 hjn, if_false, List.get?_eq_get hi]
  · have hnat : ((⌊BlindSpotDetectorApp.toDouble (r * 3)⌋.toNat : ℕ) : ℚ) =
        ((⌊BlindSpotDetectorApp.toDouble (r * 3)⌋ : ℤ) : ℚ) := by
      have := Int.toNat_of_nonneg hjn
      exact_mod_cast congrArg (fun z : ℤ => (z : ℚ)) this
    rw [Int.toNat_of_nonneg hjn, hc, hnat]
    rcases eq_or_lt_of_le hj0 with h | h
    · exact Or.inl h.symm
    · right
      have hj : ⌊BlindSpotDetectorApp.toDouble (r * 3)⌋ = (c : ℤ) + 1 := by omega
      refine ⟨hj, ?_⟩
      apply le_antisymm
      · rw [hj]
        push_cast
        exact hup
      · exact Int.floor_le _

/-- C18, amended, at a concrete input: the finance persona and the draw one
half, whose product with 3 is exactly the double 1.5: the second string. -/
theorem fallback_choice_defined_witness :
    ∃ table,
      generateFallbackResponse.responses.lookup (AI_BOTS.get ⟨4, by decide⟩).id = some table ∧
      table.length = 3 ∧
      ∃ i, ∃ hi : i < table.length,
        ⌊BlindSpotDetectorApp.toDouble ((1 / 2 : ℚ) * (table.length : ℚ))⌋ = (i : ℤ) ∧
        generateFallbackResponseDouble (AI_BOTS.get ⟨4, by decide⟩) "hello" (1 / 2) =
          .string (table.get ⟨i, hi⟩) ∧
        ((i : ℤ) = ⌊(1 / 2 : ℚ) * (table.length : ℚ)⌋ ∨
          ((i : ℤ) = ⌊(1 / 2 : ℚ) * (table.length : ℚ)⌋ + 1 ∧
            BlindSpotDetectorApp.toDouble ((1 / 2 : ℚ) * (table.length : ℚ)) = (i : ℚ))) :=
  fallback_choice_defined (AI_BOTS.get ⟨4, by decide⟩) (by decide) "hello" (1 / 2)
    (by decide!) (by norm_num) (by norm_num)

end FallbackChoice

end MeetingRoom
